import Mathlib

/-!
# Session state machine of the terminal mail client (`email-client/main.go`)

A shallow embedding of the `model` record and of the four key handlers
`updateMainMenu`, `updateEmailList`, `updateEmailView`, `updateCompose`
dispatched by `Update`.

Modelling conventions
* A Go `string` is its byte sequence (`GoString`); `len` is the byte count,
  `+=` is concatenation and `s[:n]` keeps the first `n` bytes.
* Go `int` values (`cursor`, `composeField`, `width`, `height`) are `Int`; the
  handlers only ever add or subtract one under a guard, so no wrap-around occurs.
* The file system and `sendmail` are an explicit world `W` with an environment
  `Env W` of arbitrary functions; every call made is also recorded in a log.
* A handler returns `none` exactly when the Go code would panic
  (index or slice bound out of range).
-/

set_option autoImplicit false

namespace EmailClient

/-- Go string, as the sequence of its bytes. -/
abbrev GoString := List UInt8

/-- Bytes of a Go string literal: the UTF-8 encoding of its text. -/
def str (s : String) : GoString := s.data.flatMap String.utf8EncodeChar

/-- Go `len(s)` as an `int`. -/
def len {α : Type} (xs : List α) : Int := (xs.length : Int)

/-- Go `xs[i]` for an `int` index: `none` stands for the out-of-range panic. -/
def index {α : Type} (xs : List α) (i : Int) : Option α :=
  if i < 0 then none else xs.get? i.toNat

/-- Go `s[:hi]`: `none` stands for the slice-bounds panic. -/
def sliceTo (s : GoString) (hi : Int) : Option GoString :=
  if 0 ≤ hi ∧ hi ≤ len s then some (s.take hi.toNat) else none

/-- The `Email` record. -/
structure Email where
  From : GoString
  To : GoString
  Subject : GoString
  Date : GoString
  Body : GoString
  Filename : GoString
deriving DecidableEq, Repr

/-- The `state` enumeration (`iota` constants 0..3). -/
inductive state where
  | mainMenuState
  | emailListState
  | emailViewState
  | composeState
deriving DecidableEq, Repr

open state

/-- The `model` record; `currentEmail` is a nilable pointer. -/
structure model where
  state : EmailClient.state
  cursor : Int
  emails : List Email
  currentEmail : Option Email
  composeTo : GoString
  composeSubject : GoString
  composeBody : GoString
  composeField : Int
  width : Int
  height : Int
deriving DecidableEq, Repr

/-- The command returned next to the model: `nil` or `tea.Quit`. -/
inductive Cmd where
  | nil
  | quit
deriving DecidableEq, Repr

/-- A `tea.Msg`: a window size, a key (carried as the value of `msg.String()`),
or any other message. -/
inductive Msg where
  | WindowSizeMsg (Width Height : Int)
  | KeyMsg (text : GoString)
  | other
deriving DecidableEq, Repr

/-- `msg.String()` of a key event that carries exactly one typed character:
the UTF-8 encoding of that character. -/
def runeKey (c : Char) : GoString := String.utf8EncodeChar c

/-- One call made to the outside world. -/
inductive Call where
  | getEmails
  | osRemove (name : GoString)
  | sendEmail (recipient subject body : GoString)
deriving DecidableEq, Repr

/-- The outside world as seen by the handlers.
* `getEmails w` : `none` is `(nil, err)`, `some l` is `(l, nil)`;
* `osRemove name w` : `true` when `os.Remove` returns no error;
* `sendEmail recipient subject body w` : `true` when `sendEmail` returns no error. -/
structure Env (W : Type) where
  getEmails : W → Option (List Email) × W
  osRemove : GoString → W → Bool × W
  sendEmail : GoString → GoString → GoString → W → Bool × W

/-- What a handler returns: the new model and command, together with the world
after the handler and the calls it made, in order. -/
structure Outcome (W : Type) where
  model : model
  cmd : Cmd
  world : W
  calls : List Call
deriving DecidableEq

/-- `emails, _ := getEmails()`: the error is dropped, a failure leaves `nil`. -/
def listed (r : Option (List Email)) : List Email := r.getD []

/-- `initialModel()`: every field zero, the state `mainMenuState`. -/
def initialModel : model :=
  { state := mainMenuState, cursor := 0, emails := [], currentEmail := none,
    composeTo := [], composeSubject := [], composeBody := [], composeField := 0,
    width := 0, height := 0 }

/-- The cursor clamp that follows a re-listing in both delete paths:
`if m.cursor >= len(m.emails) && len(m.emails) > 0 { m.cursor = len(m.emails) - 1 }`. -/
def clampCursor (m : model) : model :=
  if m.cursor ≥ len m.emails ∧ len m.emails > 0 then
    { m with cursor := len m.emails - 1 }
  else m

/-- `func (m model) updateMainMenu(msg tea.KeyMsg)`. -/
def updateMainMenu {W : Type} (env : Env W) (w : W) (m : model) (key : GoString) :
    Option (Outcome W) :=
  if key = str "q" ∨ key = str "ctrl+c" then
    some ⟨m, Cmd.quit, w, []⟩
  else if key = str "up" ∨ key = str "k" then
    if m.cursor > 0 then
      some ⟨{ m with cursor := m.cursor - 1 }, Cmd.nil, w, []⟩
    else some ⟨m, Cmd.nil, w, []⟩
  else if key = str "down" ∨ key = str "j" then
    if m.cursor < 2 then
      some ⟨{ m with cursor := m.cursor + 1 }, Cmd.nil, w, []⟩
    else some ⟨m, Cmd.nil, w, []⟩
  else if key = str "enter" ∨ key = str " " then
    if m.cursor = 0 then
      some ⟨{ m with emails := listed (env.getEmails w).1, state := emailListState,
                     cursor := 0 },
            Cmd.nil, (env.getEmails w).2, [Call.getEmails]⟩
    else if m.cursor = 1 then
      some ⟨{ m with state := composeState, cursor := 0, composeField := 0,
                     composeTo := str "", composeSubject := str "",
                     composeBody := str "" },
            Cmd.nil, w, []⟩
    else if m.cursor = 2 then
      some ⟨m, Cmd.quit, w, []⟩
    else some ⟨m, Cmd.nil, w, []⟩
  else some ⟨m, Cmd.nil, w, []⟩

/-- `func (m model) updateEmailList(msg tea.KeyMsg)`. -/
def updateEmailList {W : Type} (env : Env W) (w : W) (m : model) (key : GoString) :
    Option (Outcome W) :=
  if key = str "q" ∨ key = str "ctrl+c" then
    some ⟨m, Cmd.quit, w, []⟩
  else if key = str "b" ∨ key = str "esc" then
    some ⟨{ m with state := mainMenuState, cursor := 0 }, Cmd.nil, w, []⟩
  else if key = str "up" ∨ key = str "k" then
    if m.cursor > 0 then
      some ⟨{ m with cursor := m.cursor - 1 }, Cmd.nil, w, []⟩
    else some ⟨m, Cmd.nil, w, []⟩
  else if key = str "down" ∨ key = str "j" then
    if m.cursor < len m.emails - 1 then
      some ⟨{ m with cursor := m.cursor + 1 }, Cmd.nil, w, []⟩
    else some ⟨m, Cmd.nil, w, []⟩
  else if key = str "enter" ∨ key = str " " then
    if len m.emails > 0 ∧ m.cursor < len m.emails then
      match index m.emails m.cursor with
      | none => none
      | some email =>
        some ⟨{ m with currentEmail := some email, state := emailViewState },
              Cmd.nil, w, []⟩
    else some ⟨m, Cmd.nil, w, []⟩
  else if key = str "d" then
    if len m.emails > 0 ∧ m.cursor < len m.emails then
      match index m.emails m.cursor with
      | none => none
      | some email =>
        some ⟨clampCursor
                { m with emails := listed (env.getEmails (env.osRemove email.Filename w).2).1 },
              Cmd.nil, (env.getEmails (env.osRemove email.Filename w).2).2,
              [Call.osRemove email.Filename, Call.getEmails]⟩
    else some ⟨m, Cmd.nil, w, []⟩
  else some ⟨m, Cmd.nil, w, []⟩

/-- `func (m model) updateEmailView(msg tea.KeyMsg)`. -/
def updateEmailView {W : Type} (env : Env W) (w : W) (m : model) (key : GoString) :
    Option (Outcome W) :=
  if key = str "q" ∨ key = str "ctrl+c" then
    some ⟨m, Cmd.quit, w, []⟩
  else if key = str "b" ∨ key = str "esc" then
    some ⟨{ m with state := emailListState }, Cmd.nil, w, []⟩
  else if key = str "d" then
    match m.currentEmail with
    | none => some ⟨m, Cmd.nil, w, []⟩
    | some cur =>
      some ⟨clampCursor
              { m with state := emailListState,
                       emails := listed (env.getEmails (env.osRemove cur.Filename w).2).1 },
            Cmd.nil, (env.getEmails (env.osRemove cur.Filename w).2).2,
            [Call.osRemove cur.Filename, Call.getEmails]⟩
  else some ⟨m, Cmd.nil, w, []⟩

/-- The `case "backspace":` arm of `updateCompose`: drop the last byte of the
focused field when it is not empty. -/
def backspace (m : model) : Option model :=
  if m.composeField = 0 then
    if len m.composeTo > 0 then
      (sliceTo m.composeTo (len m.composeTo - 1)).map
        (fun s => { m with composeTo := s })
    else some m
  else if m.composeField = 1 then
    if len m.composeSubject > 0 then
      (sliceTo m.composeSubject (len m.composeSubject - 1)).map
        (fun s => { m with composeSubject := s })
    else some m
  else if m.composeField = 2 then
    if len m.composeBody > 0 then
      (sliceTo m.composeBody (len m.composeBody - 1)).map
        (fun s => { m with composeBody := s })
    else some m
  else some m

/-- The `default:` arm of `updateCompose`: a key whose text is one byte long is
appended to the focused field. -/
def insertText (m : model) (char : GoString) : model :=
  if len char = 1 then
    if m.composeField = 0 then { m with composeTo := m.composeTo ++ char }
    else if m.composeField = 1 then { m with composeSubject := m.composeSubject ++ char }
    else if m.composeField = 2 then { m with composeBody := m.composeBody ++ char }
    else m
  else m

/-- `func (m model) updateCompose(msg tea.KeyMsg)`. -/
def updateCompose {W : Type} (env : Env W) (w : W) (m : model) (key : GoString) :
    Option (Outcome W) :=
  if key = str "ctrl+c" then
    some ⟨m, Cmd.quit, w, []⟩
  else if key = str "esc" then
    some ⟨{ m with state := mainMenuState, cursor := 0 }, Cmd.nil, w, []⟩
  else if key = str "tab" then
    if m.composeField < 2 then
      some ⟨{ m with composeField := m.composeField + 1 }, Cmd.nil, w, []⟩
    else some ⟨m, Cmd.nil, w, []⟩
  else if key = str "shift+tab" then
    if m.composeField > 0 then
      some ⟨{ m with composeField := m.composeField - 1 }, Cmd.nil, w, []⟩
    else some ⟨m, Cmd.nil, w, []⟩
  else if key = str "ctrl+s" then
    if (env.sendEmail m.composeTo m.composeSubject m.composeBody w).1 = true then
      some ⟨{ m with state := mainMenuState, cursor := 0 }, Cmd.nil,
            (env.sendEmail m.composeTo m.composeSubject m.composeBody w).2,
            [Call.sendEmail m.composeTo m.composeSubject m.composeBody]⟩
    else
      some ⟨m, Cmd.nil,
            (env.sendEmail m.composeTo m.composeSubject m.composeBody w).2,
            [Call.sendEmail m.composeTo m.composeSubject m.composeBody]⟩
  else if key = str "enter" then
    if m.composeField = 2 then
      some ⟨{ m with composeBody := m.composeBody ++ str "\n" }, Cmd.nil, w, []⟩
    else if m.composeField < 2 then
      some ⟨{ m with composeField := m.composeField + 1 }, Cmd.nil, w, []⟩
    else some ⟨m, Cmd.nil, w, []⟩
  else if key = str "backspace" then
    (backspace m).map (fun m1 => ⟨m1, Cmd.nil, w, []⟩)
  else
    some ⟨insertText m key, Cmd.nil, w, []⟩

/-- `func (m model) Update(msg tea.Msg)`. -/
def Update {W : Type} (env : Env W) (w : W) (m : model) (msg : Msg) : Option (Outcome W) :=
  match msg with
  | Msg.WindowSizeMsg wd ht => some ⟨{ m with width := wd, height := ht }, Cmd.nil, w, []⟩
  | Msg.KeyMsg key =>
    match m.state with
    | mainMenuState => updateMainMenu env w m key
    | emailListState => updateEmailList env w m key
    | emailViewState => updateEmailView env w m key
    | composeState => updateCompose env w m key
  | Msg.other => some ⟨m, Cmd.nil, w, []⟩

/-- The event loop around a handler: inputs are fed one at a time, each to
completion; the loop ends at the first panic (`none`) or `tea.Quit`, and
otherwise when the inputs are used up. Returns the final world, model and
the last command. -/
def runWith {W α : Type} (step : W → model → α → Option (Outcome W)) :
    W → model → List α → Option (W × model × Cmd)
  | w, m, [] => some (w, m, Cmd.nil)
  | w, m, a :: rest =>
    match step w m a with
    | none => none
    | some out =>
      match out.cmd with
      | Cmd.quit => some (out.world, out.model, Cmd.quit)
      | Cmd.nil => runWith step out.world out.model rest

/-- The program of `main`: `Update` driven from a given model. -/
def run {W : Type} (env : Env W) (w : W) (m : model) (msgs : List Msg) :
    Option (W × model × Cmd) :=
  runWith (Update env) w m msgs

/-! ## Concrete stores and models used to evaluate the handlers -/

/-- A message file named `name` in the mail directory. -/
def sampleMail (name : String) : Email :=
  { From := str "alice@example.org", To := str "bob@example.org", Subject := str name,
    Date := str "Mon, 02 Jan 2006 15:04:05 -0700", Body := str "hello",
    Filename := str ("/home/bob/Maildir/new/" ++ name) }

/-- Three distinct messages. -/
def threeMails : List Email := [sampleMail "m1", sampleMail "m2", sampleMail "m3"]

/-- A well-behaved store: the world is the content of the mail directory,
listing returns it, removal deletes the file of that name, sending succeeds. -/
def maildirEnv : Env (List Email) :=
  { getEmails := fun w => (some w, w)
    osRemove := fun name w => (w.any (fun e => e.Filename = name),
                               w.filter (fun e => e.Filename ≠ name))
    sendEmail := fun _ _ _ w => (true, w) }

/-- A store whose directory can no longer be read: every listing fails, every
removal and every send fails too. -/
def brokenEnv : Env Unit :=
  { getEmails := fun u => (none, u)
    osRemove := fun _ u => (false, u)
    sendEmail := fun _ _ _ u => (false, u) }

/-- A store that can be read but not written: listing returns the content of
the mail directory, every removal fails and leaves it as it is, sending fails. -/
def readOnlyEnv : Env (List Email) :=
  { getEmails := fun w => (some w, w)
    osRemove := fun _ w => (false, w)
    sendEmail := fun _ _ _ w => (false, w) }

/-- A store that lists `threeMails` on the first call made to it and fails to
list afterwards (the world counts the calls). -/
def vanishingEnv : Env Nat :=
  { getEmails := fun n => (if n = 0 then some threeMails else none, n + 1)
    osRemove := fun _ n => (true, n + 1)
    sendEmail := fun _ _ _ n => (true, n + 1) }

/-- The message list showing `mails` with the cursor on index `c`. -/
def listOf (mails : List Email) (c : Int) : model :=
  { initialModel with state := emailListState, emails := mails, cursor := c }

/-- The message list showing `threeMails` with the cursor on index `c`. -/
def listAt (c : Int) : model := listOf threeMails c

/-- The message view opened from `listAt c` on the message `e`. -/
def viewAt (c : Int) (e : Email) : model :=
  { listAt c with state := emailViewState, currentEmail := some e }

/-- A compose screen with the given draft and focused field. -/
def composeAt (recipient subject body : GoString) (field : Int) : model :=
  { initialModel with state := composeState, composeTo := recipient,
                      composeSubject := subject, composeBody := body,
                      composeField := field }

/-! ## Navigation as the specification words it

`moveUp(cursor) = max(0, cursor-1)`; `moveDown(cursor, length) =
min(length-1, cursor+1)`, and no move at all when `length` is 0. -/

/-- Specification-side `moveUp`. -/
def specMoveUp (cursor : Int) : Int := max 0 (cursor - 1)

/-- Specification-side `moveDown`. -/
def specMoveDown (cursor length : Int) : Int :=
  if length = 0 then cursor else min (length - 1) (cursor + 1)

/-! ## State predicates -/

/-- The consistency the specification asks of a state: on the main menu the
cursor is in `[0,2]`; on the message list the cursor is in `[0, len-1]`, or is
0 when the list is empty; the focused compose field is 0, 1 or 2. -/
abbrev Consistent (m : model) : Prop :=
  (m.state = mainMenuState → 0 ≤ m.cursor ∧ m.cursor ≤ 2) ∧
  (m.state = emailListState →
    (m.emails ≠ [] → 0 ≤ m.cursor ∧ m.cursor ≤ len m.emails - 1) ∧
    (m.emails = [] → m.cursor = 0)) ∧
  (m.composeField = 0 ∨ m.composeField = 1 ∨ m.composeField = 2)

/-- The same with the empty-list clause weakened: on an empty message list the
cursor is only known to be non-negative. -/
abbrev ConsistentNonneg (m : model) : Prop :=
  (m.state = mainMenuState → 0 ≤ m.cursor ∧ m.cursor ≤ 2) ∧
  (m.state = emailListState →
    (m.emails ≠ [] → 0 ≤ m.cursor ∧ m.cursor ≤ len m.emails - 1) ∧
    (m.emails = [] → 0 ≤ m.cursor)) ∧
  (m.composeField = 0 ∨ m.composeField = 1 ∨ m.composeField = 2)

/-- The inductive invariant of `Update`: the cursor is never negative, is at
most 2 on the main menu, is below the list length on the list and view screens
whenever the list is not empty, and the compose field is in `[0,2]`. -/
def Good (m : model) : Prop :=
  0 ≤ m.cursor ∧
  (m.state = mainMenuState → m.cursor ≤ 2) ∧
  (m.state = emailListState ∨ m.state = emailViewState →
    len m.emails = 0 ∨ m.cursor < len m.emails) ∧
  0 ≤ m.composeField ∧ m.composeField ≤ 2

/-- The text of the draft field that `composeField` selects (0 recipient,
1 subject, 2 body); empty when `composeField` selects no field. -/
def focusedText (m : model) : GoString :=
  if m.composeField = 0 then m.composeTo
  else if m.composeField = 1 then m.composeSubject
  else if m.composeField = 2 then m.composeBody
  else []

/-- The model with the text of the focused draft field replaced by `t` and
nothing else touched. -/
def withFocusedText (m : model) (t : GoString) : model :=
  if m.composeField = 0 then { m with composeTo := t }
  else if m.composeField = 1 then { m with composeSubject := t }
  else if m.composeField = 2 then { m with composeBody := t }
  else m

/-- The key texts that `updateCompose` binds to a command. -/
def composeCommands : List GoString :=
  [str "ctrl+c", str "esc", str "tab", str "shift+tab", str "ctrl+s", str "enter",
   str "backspace"]

/-! ## The listing function of the source -/

/-- What `mail.ReadMessage` and `io.ReadAll` deliver for one file: the four
headers read by `parseEmail` and the raw body. -/
structure RawMessage where
  From : GoString
  To : GoString
  Subject : GoString
  Date : GoString
  Body : GoString
deriving DecidableEq, Repr

/-- The operating system and library calls used by `getEmails` and `parseEmail`.
* `maildir w` : `filepath.Join(os.Getenv("HOME"), "Maildir", "new")`;
* `readDir dir w` : the names `ioutil.ReadDir` returns, `none` on error;
* `join dir name` : `filepath.Join(dir, name)`;
* `readMessage path w` : `os.Open`, `mail.ReadMessage` and `io.ReadAll` in
  turn, `none` when one of them returns an error;
* `trimSpace` : `strings.TrimSpace`;
* `sortSlice less l` : the order `sort.Slice` leaves `l` in. -/
structure Dir (W : Type) where
  maildir : W → GoString
  readDir : GoString → W → Option (List GoString)
  join : GoString → GoString → GoString
  readMessage : GoString → W → Option RawMessage
  trimSpace : GoString → GoString
  sortSlice : (Email → Email → Bool) → List Email → List Email

/-- `func parseEmail(filename string) (*Email, error)`. -/
def parseEmail {W : Type} (d : Dir W) (filename : GoString) (w : W) : Option Email :=
  match d.readMessage filename w with
  | none => none
  | some msg =>
    some { From := msg.From, To := msg.To, Subject := msg.Subject, Date := msg.Date,
           Body := d.trimSpace msg.Body, Filename := filename }

/-- Go `a < b` on strings: byte-wise lexicographic order. -/
def strLess : GoString → GoString → Bool
  | [], [] => false
  | [], _ :: _ => true
  | _ :: _, [] => false
  | a :: as, b :: bs =>
    if a.toNat < b.toNat then true
    else if b.toNat < a.toNat then false
    else strLess as bs

/-- `func getEmails() ([]*Email, error)`: `none` is the return `nil, err`; files
that do not parse are skipped; the result is sorted by `Date`, larger first. -/
def getEmails {W : Type} (d : Dir W) (w : W) : Option (List Email) :=
  match d.readDir (d.maildir w) w with
  | none => none
  | some files =>
    some (d.sortSlice (fun a b => strLess b.Date a.Date)
      (files.filterMap (fun file => parseEmail d (d.join (d.maildir w) file) w)))

/-! ## The transition table as the specification words it -/

/-- The quit keys of the three browsing screens. -/
abbrev quitKey (key : GoString) : Prop := key = str "q" ∨ key = str "ctrl+c"

/-- The up keys. -/
abbrev upKey (key : GoString) : Prop := key = str "up" ∨ key = str "k"

/-- The down keys. -/
abbrev downKey (key : GoString) : Prop := key = str "down" ∨ key = str "j"

/-- The select keys. -/
abbrev selectKey (key : GoString) : Prop := key = str "enter" ∨ key = str " "

/-- The back keys. -/
abbrev backKey (key : GoString) : Prop := key = str "b" ∨ key = str "esc"

/-- The delete key. -/
abbrev deleteKey (key : GoString) : Prop := key = str "d"

/-- The key matches a row of the transition table for the screen of `m`
(main menu, message list or message view): quit on any of them; on the main
menu up, down, and select with cursor 0, 1 or 2; on the message list up, down,
back, and select or delete when the list is not empty and the cursor is a valid
index; on the message view back and delete. -/
abbrev rowMatches (m : model) (key : GoString) : Prop :=
  quitKey key ∨
  (m.state = mainMenuState ∧
    (upKey key ∨ downKey key ∨
      (selectKey key ∧ (m.cursor = 0 ∨ m.cursor = 1 ∨ m.cursor = 2)))) ∨
  (m.state = emailListState ∧
    (upKey key ∨ downKey key ∨ backKey key ∨
      ((selectKey key ∨ deleteKey key) ∧
        m.emails ≠ [] ∧ 0 ≤ m.cursor ∧ m.cursor < len m.emails))) ∨
  (m.state = emailViewState ∧ (backKey key ∨ deleteKey key))

/-- The currently-viewed message is set only while the screen is the message
view. -/
abbrev ViewedOnlyInView (m : model) : Prop :=
  m.currentEmail ≠ none → m.state = emailViewState

/-- On the message view a currently-viewed message is set. -/
abbrev ViewHasMail (m : model) : Prop :=
  m.state = emailViewState → m.currentEmail ≠ none

/-! ## Basic facts -/

theorem len_nonneg {α : Type} (xs : List α) : 0 ≤ len xs := by
  unfold len; exact Int.ofNat_nonneg _

theorem len_eq_zero_iff {α : Type} (xs : List α) : len xs = 0 ↔ xs = [] := by
  unfold len; cases xs <;> simp
  omega

theorem len_pos_iff {α : Type} (xs : List α) : 0 < len xs ↔ xs ≠ [] := by
  unfold len; cases xs <;> simp

theorem index_some {α : Type} (xs : List α) (i : Int) (h0 : 0 ≤ i) (h1 : i < len xs) :
    ∃ x, index xs i = some x ∧ xs.get? i.toNat = some x := by
  have hlt : i.toNat < xs.length := by unfold len at h1; omega
  refine ⟨xs.get ⟨i.toNat, hlt⟩, ?_, ?_⟩
  · unfold index
    rw [if_neg (by omega)]
    exact List.get?_eq_get hlt
  · exact List.get?_eq_get hlt

theorem index_neg {α : Type} (xs : List α) (i : Int) (h : i < 0) : index xs i = none := by
  unfold index; rw [if_pos h]

theorem sliceTo_dropLast (s : GoString) (h : 0 < len s) :
    sliceTo s (len s - 1) = some s.dropLast := by
  unfold sliceTo
  have h1 : 0 ≤ len s - 1 ∧ len s - 1 ≤ len s := by omega
  rw [if_pos h1]
  have h2 : (len s - 1).toNat = s.length - 1 := by unfold len at *; omega
  rw [h2, List.dropLast_eq_take]

/-! ## Main menu navigation -/

/-- One up or down key on the main menu: no call, no command, state kept, and
the cursor stays in `[0,2]`. -/
theorem updateMainMenu_move {W : Type} (env : Env W) (w : W) (m : model) (key : GoString)
    (hkey : key = str "up" ∨ key = str "k" ∨ key = str "down" ∨ key = str "j")
    (hlo : 0 ≤ m.cursor) (hhi : m.cursor ≤ 2) :
    ∃ m1, updateMainMenu env w m key = some ⟨m1, Cmd.nil, w, []⟩ ∧
      m1.state = m.state ∧ 0 ≤ m1.cursor ∧ m1.cursor ≤ 2 := by
  rcases hkey with rfl | rfl | rfl | rfl
  · by_cases h : m.cursor > 0
    · exact ⟨{ m with cursor := m.cursor - 1 }, by simp +decide [updateMainMenu, h],
        rfl, by simp; omega, by simp; omega⟩
    · exact ⟨m, by simp +decide [updateMainMenu, h], rfl, hlo, hhi⟩
  · by_cases h : m.cursor > 0
    · exact ⟨{ m with cursor := m.cursor - 1 }, by simp +decide [updateMainMenu, h],
        rfl, by simp; omega, by simp; omega⟩
    · exact ⟨m, by simp +decide [updateMainMenu, h], rfl, hlo, hhi⟩
  · by_cases h : m.cursor < 2
    · exact ⟨{ m with cursor := m.cursor + 1 }, by simp +decide [updateMainMenu, h],
        rfl, by simp; omega, by simp; omega⟩
    · exact ⟨m, by simp +decide [updateMainMenu, h], rfl, hlo, hhi⟩
  · by_cases h : m.cursor < 2
    · exact ⟨{ m with cursor := m.cursor + 1 }, by simp +decide [updateMainMenu, h],
        rfl, by simp; omega, by simp; omega⟩
    · exact ⟨m, by simp +decide [updateMainMenu, h], rfl, hlo, hhi⟩

/-- C1: starting from a model whose cursor is in `[0,2]`, after each step `n`
of any sequence of up ("up"/"k") and down ("down"/"j") keys handled by
`updateMainMenu` the handler has returned (no panic, no quit) and the cursor is
again in `[0,2]`, with the screen unchanged. -/
theorem C1_main_menu_cursor_stays_in_range {W : Type} (env : Env W) (keys : List GoString)
    (hkeys : ∀ k ∈ keys, k = str "up" ∨ k = str "k" ∨ k = str "down" ∨ k = str "j")
    (w : W) (m : model) (hlo : 0 ≤ m.cursor) (hhi : m.cursor ≤ 2) (n : Nat) :
    ∃ m1, runWith (updateMainMenu env) w m (keys.take n) = some (w, m1, Cmd.nil) ∧
      m1.state = m.state ∧ 0 ≤ m1.cursor ∧ m1.cursor ≤ 2 := by
  induction keys generalizing m n with
  | nil => exact ⟨m, by simp [runWith], rfl, hlo, hhi⟩
  | cons k ks ih =>
    cases n with
    | zero => exact ⟨m, by simp [runWith], rfl, hlo, hhi⟩
    | succ n =>
      obtain ⟨m1, h1, hs1, hlo1, hhi1⟩ :=
        updateMainMenu_move env w m k (hkeys k (List.mem_cons_self k ks)) hlo hhi
      obtain ⟨m2, h2, hs2, hlo2, hhi2⟩ :=
        ih (fun k1 hk1 => hkeys k1 (List.mem_cons_of_mem k hk1)) m1 hlo1 hhi1 n
      refine ⟨m2, ?_, hs2.trans hs1, hlo2, hhi2⟩
      simp only [List.take_succ_cons, runWith, h1]
      exact h2

/-- C1 at a concrete input: from `initialModel`, the keys down, down, down, up
(the lower boundary pushed once) leave the cursor in range after the fourth step. -/
theorem C1_main_menu_cursor_stays_in_range_witness :
    ∃ m1, runWith (updateMainMenu brokenEnv) () initialModel
        ([str "down", str "j", str "down", str "up"].take 4) = some ((), m1, Cmd.nil) ∧
      m1.state = initialModel.state ∧ 0 ≤ m1.cursor ∧ m1.cursor ≤ 2 :=
  C1_main_menu_cursor_stays_in_range brokenEnv [str "down", str "j", str "down", str "up"]
    (by decide) () initialModel (by decide) (by decide) 4

/-! ## List navigation -/

/-- C2: on a loaded list of length `N = len m.emails` and a cursor `c` with
`0 ≤ c ≤ max(N-1,0)`, the up keys of `updateEmailList` yield the cursor
`moveUp(c) = max(0,c-1)` and the down keys yield `moveDown(c,N) = min(N-1,c+1)`
(`c` itself when `N = 0`), nothing else changes, and the new cursor is again in
`[0, max(N-1,0)]`. -/
theorem C2_email_list_up_down {W : Type} (env : Env W) (w : W) (m : model)
    (hlo : 0 ≤ m.cursor) (hhi : m.cursor ≤ max (len m.emails - 1) 0) :
    (∀ key, key = str "up" ∨ key = str "k" →
      updateEmailList env w m key =
        some ⟨{ m with cursor := specMoveUp m.cursor }, Cmd.nil, w, []⟩ ∧
      0 ≤ specMoveUp m.cursor ∧ specMoveUp m.cursor ≤ max (len m.emails - 1) 0) ∧
    (∀ key, key = str "down" ∨ key = str "j" →
      updateEmailList env w m key =
        some ⟨{ m with cursor := specMoveDown m.cursor (len m.emails) }, Cmd.nil, w, []⟩ ∧
      0 ≤ specMoveDown m.cursor (len m.emails) ∧
      specMoveDown m.cursor (len m.emails) ≤ max (len m.emails - 1) 0) := by
  have hn := len_nonneg m.emails
  constructor
  · intro key hkey
    have hup : specMoveUp m.cursor = if m.cursor > 0 then m.cursor - 1 else m.cursor := by
      unfold specMoveUp
      split_ifs with h
      · exact max_eq_right (by omega)
      · rw [max_eq_left (by omega)]; omega
    refine ⟨?_, ?_, ?_⟩
    · rw [hup]
      rcases hkey with rfl | rfl <;> by_cases h : m.cursor > 0 <;>
        simp +decide [updateEmailList, h]
    · rw [hup]; split_ifs <;> omega
    · rw [hup]; split_ifs with h
      · exact le_trans (by omega) hhi
      · exact hhi
  · intro key hkey
    have hdown : specMoveDown m.cursor (len m.emails) =
        if m.cursor < len m.emails - 1 then m.cursor + 1 else m.cursor := by
      unfold specMoveDown
      rcases le_total (len m.emails - 1) 0 with h0 | h0
      · rw [max_eq_right h0] at hhi
        have hc : m.cursor = 0 := by omega
        split_ifs with h1 h2 h2
        · omega
        · rfl
        · omega
        · rw [min_eq_left (by omega)]; omega
      · rw [max_eq_left h0] at hhi
        split_ifs with h1 h2 h2
        · omega
        · rfl
        · exact min_eq_right (by omega)
        · rw [min_eq_left (by omega)]; omega
    refine ⟨?_, ?_, ?_⟩
    · rw [hdown]
      rcases hkey with rfl | rfl <;> by_cases h : m.cursor < len m.emails - 1 <;>
        simp +decide [updateEmailList, h]
    · rw [hdown]; split_ifs <;> omega
    · rw [hdown]; split_ifs with h
      · exact le_trans (by omega) (le_max_left _ _)
      · exact hhi

/-- C2 at a concrete input: three messages, cursor on the middle one. -/
theorem C2_email_list_up_down_witness :
    (∀ key, key = str "up" ∨ key = str "k" →
      updateEmailList maildirEnv threeMails (listAt 1) key =
        some ⟨{ listAt 1 with cursor := specMoveUp (listAt 1).cursor }, Cmd.nil,
              threeMails, []⟩ ∧
      0 ≤ specMoveUp (listAt 1).cursor ∧
      specMoveUp (listAt 1).cursor ≤ max (len (listAt 1).emails - 1) 0) ∧
    (∀ key, key = str "down" ∨ key = str "j" →
      updateEmailList maildirEnv threeMails (listAt 1) key =
        some ⟨{ listAt 1 with cursor := specMoveDown (listAt 1).cursor (len (listAt 1).emails) },
              Cmd.nil, threeMails, []⟩ ∧
      0 ≤ specMoveDown (listAt 1).cursor (len (listAt 1).emails) ∧
      specMoveDown (listAt 1).cursor (len (listAt 1).emails) ≤
        max (len (listAt 1).emails - 1) 0) :=
  C2_email_list_up_down maildirEnv threeMails (listAt 1) (by decide) (by decide)

/-! ## Deleting a message -/

theorem clampCursor_emails (m : model) : (clampCursor m).emails = m.emails := by
  unfold clampCursor; split_ifs <;> rfl

theorem clampCursor_state (m : model) : (clampCursor m).state = m.state := by
  unfold clampCursor; split_ifs <;> rfl

theorem clampCursor_composeField (m : model) :
    (clampCursor m).composeField = m.composeField := by
  unfold clampCursor; split_ifs <;> rfl

theorem clampCursor_cursor_nonempty (m : model) (h : m.emails ≠ []) :
    (clampCursor m).cursor = min m.cursor (len m.emails - 1) := by
  have hp := (len_pos_iff m.emails).2 h
  unfold clampCursor
  split_ifs with h1
  · show len m.emails - 1 = _
    exact (min_eq_right (by omega)).symm
  · exact (min_eq_left (by omega)).symm

theorem clampCursor_cursor_empty (m : model) (h : m.emails = []) :
    (clampCursor m).cursor = m.cursor := by
  have hz := (len_eq_zero_iff m.emails).2 h
  unfold clampCursor
  rw [if_neg (by omega)]

theorem clampCursor_valid (m : model) (hlo : 0 ≤ m.cursor) (h : m.emails ≠ []) :
    (clampCursor m).cursor = min m.cursor (len m.emails - 1) ∧
    0 ≤ (clampCursor m).cursor ∧ (clampCursor m).cursor < len m.emails := by
  have hp := (len_pos_iff m.emails).2 h
  rw [clampCursor_cursor_nonempty m h]
  refine ⟨rfl, le_min hlo (by omega), ?_⟩
  exact lt_of_le_of_lt (min_le_right _ _) (by omega)

/-- C3, as amended: in a message view with a currently-viewed message and a
cursor `c ≥ 0`, whatever list `L` the re-listing returns (the empty list when
it fails), the delete key removes the viewed message's file, re-lists once, and
returns screen `emailListState` with `emails = L`; the cursor is
`min(c, len L - 1)`, a valid index of `L`, when `L` is not empty, and keeps its
value `c` when `L` is empty. -/
theorem C3_view_delete_returns_to_list {W : Type} (env : Env W) (w : W) (m : model)
    (cur : Email) (hcur : m.currentEmail = some cur) (hlo : 0 ≤ m.cursor) :
    ∃ out, updateEmailView env w m (str "d") = some out ∧
      out.calls = [Call.osRemove cur.Filename, Call.getEmails] ∧
      out.cmd = Cmd.nil ∧
      out.model.state = emailListState ∧
      out.model.emails = listed (env.getEmails (env.osRemove cur.Filename w).2).1 ∧
      (out.model.emails ≠ [] →
        out.model.cursor = min m.cursor (len out.model.emails - 1) ∧
        0 ≤ out.model.cursor ∧ out.model.cursor < len out.model.emails) ∧
      (out.model.emails = [] → out.model.cursor = m.cursor) := by
  refine ⟨_, by simp +decide [updateEmailView, hcur]; rfl, rfl, rfl, ?_, ?_, ?_, ?_⟩
  · simp [clampCursor_state]
  · simp [clampCursor_emails]
  · intro hne
    simp only [clampCursor_emails] at hne ⊢
    exact clampCursor_valid _ hlo hne
  · intro he
    simp only [clampCursor_emails] at he
    exact clampCursor_cursor_empty _ he

/-- C3 at a concrete input: the third of three messages is viewed and deleted
in a well-behaved store; the list shrinks to two and the cursor moves to 1. -/
theorem C3_view_delete_returns_to_list_witness :
    ∃ out, updateEmailView maildirEnv threeMails (viewAt 2 (sampleMail "m3")) (str "d") =
        some out ∧
      out.calls = [Call.osRemove (sampleMail "m3").Filename, Call.getEmails] ∧
      out.cmd = Cmd.nil ∧
      out.model.state = emailListState ∧
      out.model.emails =
        listed (maildirEnv.getEmails
          (maildirEnv.osRemove (sampleMail "m3").Filename threeMails).2).1 ∧
      (out.model.emails ≠ [] →
        out.model.cursor = min (viewAt 2 (sampleMail "m3")).cursor (len out.model.emails - 1) ∧
        0 ≤ out.model.cursor ∧ out.model.cursor < len out.model.emails) ∧
      (out.model.emails = [] → out.model.cursor = (viewAt 2 (sampleMail "m3")).cursor) :=
  C3_view_delete_returns_to_list maildirEnv threeMails (viewAt 2 (sampleMail "m3"))
    (sampleMail "m3") rfl (by decide)

/-- C3 as first stated fails. (1) The third message is viewed (cursor 2) and
deleted while the re-listing fails: the list is empty and the cursor is still
2, not 0. (2) With a negative cursor and a re-listing of three messages the
cursor stays negative, which is no index of the list. -/
theorem C3_view_delete_counterexample :
    (updateEmailView brokenEnv () (viewAt 2 (sampleMail "m3")) (str "d")).map
        (fun out => (out.model.state, out.model.emails, out.model.cursor)) =
      some (emailListState, [], 2) ∧
    (updateEmailView maildirEnv threeMails (viewAt (-1) (sampleMail "m9")) (str "d")).map
        (fun out => (out.model.state, out.model.emails, out.model.cursor)) =
      some (emailListState, threeMails, -1) := by
  constructor <;> decide

/-- Removing by identifier removes exactly the message at the index when the
identifiers are pairwise distinct. -/
theorem filter_ne_eq_eraseIdx (l : List Email) (hd : (l.map Email.Filename).Nodup)
    (i : Nat) (e : Email) (hi : l.get? i = some e) :
    l.filter (fun x => decide (x.Filename ≠ e.Filename)) = l.eraseIdx i := by
  induction l generalizing i with
  | nil => simp at hi
  | cons a t ih =>
    rw [List.map_cons, List.nodup_cons] at hd
    cases i with
    | zero =>
      simp only [List.get?_cons_zero, Option.some.injEq] at hi
      subst hi
      rw [List.eraseIdx_cons_zero, List.filter_cons_of_neg (by simp)]
      apply List.filter_eq_self.2
      intro x hx
      have hx1 : x.Filename ≠ a.Filename :=
        fun h => hd.1 (h ▸ List.mem_map_of_mem Email.Filename hx)
      simpa using hx1
    | succ j =>
      simp only [List.get?_cons_succ] at hi
      have hmem : e ∈ t := List.get?_mem hi
      have hne : a.Filename ≠ e.Filename :=
        fun h => hd.1 (h ▸ List.mem_map_of_mem Email.Filename hmem)
      rw [List.eraseIdx_cons_succ, List.filter_cons_of_pos (by simpa using hne),
        ih hd.2 j hi]

/-- C4: in a message list whose messages have pairwise distinct file names and
whose cursor `c` is a valid index, the delete key of `updateEmailList` makes
exactly the calls `os.Remove(emails[c].Filename)` and then `getEmails()`; when
the store reflects the deletion (the re-listing returns the previous messages
without the one of that file name, i.e. the previous list with index `c`
erased), the result is on `emailListState`, holds that shorter list, and has
cursor `min(c, newLen-1)` when `newLen > 0` and `0` when `newLen = 0`. -/
theorem C4_list_delete_selected {W : Type} (env : Env W) (w : W) (m : model)
    (hstate : m.state = emailListState)
    (hdistinct : (m.emails.map Email.Filename).Nodup)
    (hlo : 0 ≤ m.cursor) (hhi : m.cursor < len m.emails)
    (hstore : ∀ e, index m.emails m.cursor = some e →
      (env.getEmails (env.osRemove e.Filename w).2).1 =
        some (m.emails.filter (fun x => decide (x.Filename ≠ e.Filename)))) :
    ∃ e out, index m.emails m.cursor = some e ∧
      updateEmailList env w m (str "d") = some out ∧
      out.calls = [Call.osRemove e.Filename, Call.getEmails] ∧
      out.cmd = Cmd.nil ∧
      out.model.state = emailListState ∧
      out.model.emails = m.emails.eraseIdx m.cursor.toNat ∧
      len out.model.emails = len m.emails - 1 ∧
      out.model.cursor =
        if len out.model.emails > 0 then min m.cursor (len out.model.emails - 1) else 0 := by
  obtain ⟨e, he, hget⟩ := index_some m.emails m.cursor hlo hhi
  have hpos : len m.emails > 0 := by omega
  refine ⟨e, _, he, by simp +decide [updateEmailList, hpos, hhi, he]; rfl, rfl, rfl, ?_⟩
  have herase := filter_ne_eq_eraseIdx m.emails hdistinct m.cursor.toNat e hget
  have hlen : len (m.emails.eraseIdx m.cursor.toNat) = len m.emails - 1 := by
    unfold len at *
    rw [List.length_eraseIdx, if_pos (by omega)]
    omega
  simp only [clampCursor_state, clampCursor_emails, hstore e he, listed, Option.getD_some,
    herase]
  refine ⟨hstate, trivial, hlen, ?_⟩
  by_cases hnew : len (m.emails.eraseIdx m.cursor.toNat) > 0
  · rw [if_pos hnew]
    have hne : (m.emails.eraseIdx m.cursor.toNat) ≠ [] := (len_pos_iff _).1 hnew
    exact clampCursor_cursor_nonempty
      { m with emails := m.emails.eraseIdx m.cursor.toNat } hne
  · rw [if_neg hnew]
    have hnil : (m.emails.eraseIdx m.cursor.toNat) = [] :=
      (len_eq_zero_iff _).1 (by have := len_nonneg (m.emails.eraseIdx m.cursor.toNat); omega)
    rw [clampCursor_cursor_empty { m with emails := m.emails.eraseIdx m.cursor.toNat } hnil]
    show m.cursor = 0
    omega

/-- C4 at the scenario of the specification: one message, cursor 0, delete, in
a store that reflects the deletion. -/
theorem C4_list_delete_selected_witness :
    ∃ e out, index (listOf [sampleMail "m1"] 0).emails (listOf [sampleMail "m1"] 0).cursor =
        some e ∧
      updateEmailList maildirEnv [sampleMail "m1"] (listOf [sampleMail "m1"] 0) (str "d") =
        some out ∧
      out.calls = [Call.osRemove e.Filename, Call.getEmails] ∧
      out.cmd = Cmd.nil ∧
      out.model.state = emailListState ∧
      out.model.emails =
        (listOf [sampleMail "m1"] 0).emails.eraseIdx (listOf [sampleMail "m1"] 0).cursor.toNat ∧
      len out.model.emails = len (listOf [sampleMail "m1"] 0).emails - 1 ∧
      out.model.cursor =
        if len out.model.emails > 0 then
          min (listOf [sampleMail "m1"] 0).cursor (len out.model.emails - 1)
        else 0 :=
  C4_list_delete_selected maildirEnv [sampleMail "m1"] (listOf [sampleMail "m1"] 0)
    rfl (by decide) (by decide) (by decide)
    (by
      intro e he
      have he1 : e = sampleMail "m1" := by
        have h0 : index (listOf [sampleMail "m1"] 0).emails (listOf [sampleMail "m1"] 0).cursor =
            some (sampleMail "m1") := by decide
        rw [h0] at he
        exact (Option.some.inj he).symm
      subst he1
      decide)

/-! ## The invariant of the session -/

theorem good_initialModel : Good initialModel := by
  unfold Good initialModel; simp

theorem updateMainMenu_good {W : Type} (env : Env W) (w : W) (m : model) (key : GoString)
    (hg : Good m) (hs : m.state = mainMenuState) :
    ∃ out, updateMainMenu env w m key = some out ∧ Good out.model := by
  obtain ⟨h0, h1, _, h3, h4⟩ := hg
  have h2 := h1 hs
  have hl := len_nonneg (listed (env.getEmails w).1)
  unfold updateMainMenu
  split_ifs <;> refine ⟨_, rfl, ?_⟩ <;>
    simp only [Good, hs, true_implies, reduceCtorEq, false_implies, false_or, or_false,
      true_or, or_true, implies_true, true_and, and_true, le_refl] <;>
    omega

theorem clampCursor_good (m : model) (h0 : 0 ≤ m.cursor) (hs : m.state = emailListState)
    (h3 : 0 ≤ m.composeField) (h4 : m.composeField ≤ 2) : Good (clampCursor m) := by
  have hl := len_nonneg m.emails
  unfold clampCursor
  split_ifs <;>
    simp only [Good, hs, true_implies, reduceCtorEq, false_implies, false_or, or_false,
      true_or, or_true, implies_true, true_and, and_true, le_refl] <;>
    omega

theorem updateEmailList_good {W : Type} (env : Env W) (w : W) (m : model) (key : GoString)
    (hg : Good m) (hs : m.state = emailListState) :
    ∃ out, updateEmailList env w m key = some out ∧ Good out.model := by
  obtain ⟨h0, _, h2, h3, h4⟩ := hg
  have h2a := h2 (Or.inl hs)
  have hl := len_nonneg m.emails
  unfold updateEmailList
  split_ifs <;> first
    | (refine ⟨_, rfl, ?_⟩
       simp only [Good, hs, true_implies, reduceCtorEq, false_implies, false_or, or_false,
         true_or, or_true, implies_true, true_and, and_true, le_refl]
       omega)
    | (rename_i hguard
       obtain ⟨e, he, _⟩ := index_some m.emails m.cursor h0 hguard.2
       simp only [he]
       refine ⟨_, rfl, ?_⟩
       first
         | exact clampCursor_good _ h0 hs h3 h4
         | (simp only [Good, hs, true_implies, reduceCtorEq, false_implies, false_or,
              or_false, true_or, or_true, implies_true, true_and, and_true, le_refl]
            omega))

theorem updateEmailView_good {W : Type} (env : Env W) (w : W) (m : model) (key : GoString)
    (hg : Good m) (hs : m.state = emailViewState) :
    ∃ out, updateEmailView env w m key = some out ∧ Good out.model := by
  obtain ⟨h0, _, h2, h3, h4⟩ := hg
  have h2a := h2 (Or.inr hs)
  have hl := len_nonneg m.emails
  unfold updateEmailView
  split_ifs <;> first
    | (refine ⟨_, rfl, ?_⟩
       simp only [Good, hs, true_implies, reduceCtorEq, false_implies, false_or, or_false,
         true_or, or_true, implies_true, true_and, and_true, le_refl]
       omega)
    | (cases hcur : m.currentEmail with
       | none =>
         refine ⟨_, rfl, ?_⟩
         simp only [Good, hs, true_implies, reduceCtorEq, false_implies, false_or, or_false,
           true_or, or_true, implies_true, true_and, and_true, le_refl]
         omega
       | some cur =>
         refine ⟨_, rfl, ?_⟩
         exact clampCursor_good _ h0 rfl h3 h4)

theorem backspace_some (m : model) :
    ∃ m1, backspace m = some m1 ∧ m1.state = m.state ∧ m1.cursor = m.cursor ∧
      m1.emails = m.emails ∧ m1.composeField = m.composeField ∧
      m1.currentEmail = m.currentEmail := by
  unfold backspace
  split_ifs with h0 ht h1 hs h2 hb <;> first
    | exact ⟨m, rfl, rfl, rfl, rfl, rfl, rfl⟩
    | (rw [sliceTo_dropLast _ (by assumption)]
       exact ⟨_, rfl, rfl, rfl, rfl, rfl, rfl⟩)

theorem updateCompose_good {W : Type} (env : Env W) (w : W) (m : model) (key : GoString)
    (hg : Good m) (hs : m.state = composeState) :
    ∃ out, updateCompose env w m key = some out ∧ Good out.model := by
  obtain ⟨h0, _, _, h3, h4⟩ := hg
  unfold updateCompose
  split_ifs <;> first
    | (refine ⟨_, rfl, ?_⟩
       simp only [Good, hs, true_implies, reduceCtorEq, false_implies, false_or, or_false,
         true_or, or_true, implies_true, true_and, and_true, le_refl]
       omega)
    | (obtain ⟨m1, hb, hst, hc, _, hf, _⟩ := backspace_some m
       refine ⟨⟨m1, Cmd.nil, w, []⟩, by rw [hb]; rfl, ?_⟩
       simp only [Good, hst, hc, hf, hs, true_implies, reduceCtorEq, false_implies, false_or,
         or_false, true_or, or_true, implies_true, true_and, and_true, le_refl]
       omega)
    | (refine ⟨_, rfl, ?_⟩
       unfold insertText
       split_ifs <;>
         simp only [Good, hs, true_implies, reduceCtorEq, false_implies, false_or, or_false,
           true_or, or_true, implies_true, true_and, and_true, le_refl] <;>
         omega)

/-- Every message handled by `Update` from a good state returns (no panic) and
the new state is good again. -/
theorem Update_good {W : Type} (env : Env W) (w : W) (m : model) (msg : Msg)
    (hg : Good m) : ∃ out, Update env w m msg = some out ∧ Good out.model := by
  cases msg with
  | WindowSizeMsg wd ht => exact ⟨_, rfl, hg⟩
  | other => exact ⟨_, rfl, hg⟩
  | KeyMsg key =>
    unfold Update
    cases hs : m.state with
    | mainMenuState => exact updateMainMenu_good env w m key hg hs
    | emailListState => exact updateEmailList_good env w m key hg hs
    | emailViewState => exact updateEmailView_good env w m key hg hs
    | composeState => exact updateCompose_good env w m key hg hs

/-- The event loop started in a good state never panics and ends in a good
state, whatever the messages and whatever the store and transport do. -/
theorem runWith_Update_good {W : Type} (env : Env W) (msgs : List Msg) (w : W) (m : model)
    (hg : Good m) :
    ∃ w1 m1 c, runWith (Update env) w m msgs = some (w1, m1, c) ∧ Good m1 := by
  induction msgs generalizing w m with
  | nil => exact ⟨w, m, Cmd.nil, rfl, hg⟩
  | cons msg rest ih =>
    obtain ⟨out, hout, hgood⟩ := Update_good env w m msg hg
    cases hc : out.cmd with
    | quit => exact ⟨out.world, out.model, Cmd.quit, by simp only [runWith, hout, hc], hgood⟩
    | nil =>
      obtain ⟨w1, m1, c, hrun, hg1⟩ := ih out.world out.model hgood
      exact ⟨w1, m1, c, by simp only [runWith, hout, hc]; exact hrun, hg1⟩

theorem good_consistentNonneg (m : model) (hg : Good m) : ConsistentNonneg m := by
  obtain ⟨h0, h1, h2, h3, h4⟩ := hg
  refine ⟨fun hs => ⟨h0, h1 hs⟩, fun hs => ⟨fun hne => ?_, fun _ => h0⟩, by omega⟩
  have hp := (len_pos_iff _).2 hne
  have := h2 (Or.inl hs)
  omega

/-- C5, as amended: from `initialModel`, for every finite sequence of key
events fed through `Update` and every behaviour of the store and transport,
the loop does not panic, and the state after the last transition (hence after
each one, every prefix being a sequence too) is consistent in this sense: on
the main menu the cursor is in `[0,2]`; on the message list the cursor is in
`[0, len(emails)-1]` when the list is not empty and is non-negative when the
list is empty; the focused compose field is 0, 1 or 2. -/
theorem C5_reachable_states_consistent {W : Type} (env : Env W) (w : W)
    (keys : List GoString) :
    ∃ w1 m1 c, run env w initialModel (keys.map Msg.KeyMsg) = some (w1, m1, c) ∧
      ConsistentNonneg m1 := by
  obtain ⟨w1, m1, c, hrun, hg⟩ :=
    runWith_Update_good env (keys.map Msg.KeyMsg) w initialModel good_initialModel
  exact ⟨w1, m1, c, hrun, good_consistentNonneg m1 hg⟩

/-- C5 as first stated fails: the list of three messages is opened, the cursor
is moved to the third, and the delete key is pressed while the re-listing
fails. The session is then on the message list with an empty list and cursor
2, so the clause "cursor is 0 when the list is empty" does not hold. -/
theorem C5_reachable_states_counterexample :
    (run vanishingEnv 0 initialModel
        ([str "enter", str "j", str "j", str "d"].map Msg.KeyMsg)).map
      (fun r => (r.2.1.state, r.2.1.emails, r.2.1.cursor, decide (Consistent r.2.1))) =
    some (emailListState, [], 2, false) := by
  decide

/-! ## Entering the compose screen -/

/-- C6: on the main menu with cursor 1, whatever draft texts and focus are
left in the model, the select keys ("enter", " ") of `updateMainMenu` return,
without any call, the compose screen with recipient, subject and body empty
and the focus on the recipient field (0). -/
theorem C6_select_send_email_resets_draft {W : Type} (env : Env W) (w : W) (m : model)
    (key : GoString) (hkey : key = str "enter" ∨ key = str " ") (hc : m.cursor = 1) :
    ∃ out, updateMainMenu env w m key = some out ∧
      out.cmd = Cmd.nil ∧ out.calls = [] ∧
      out.model.state = composeState ∧
      out.model.composeTo = [] ∧ out.model.composeSubject = [] ∧
      out.model.composeBody = [] ∧ out.model.composeField = 0 := by
  refine ⟨⟨{ m with state := composeState, cursor := 0, composeField := 0,
                    composeTo := str "", composeSubject := str "", composeBody := str "" },
           Cmd.nil, w, []⟩, ?_, rfl, rfl, rfl, rfl, rfl, rfl, rfl⟩
  rcases hkey with rfl | rfl <;> simp +decide [updateMainMenu, hc]

/-- C6 at a concrete input: a draft left over from a cancelled session, with
the focus on the body, is wiped when "Send Email" is selected again. -/
theorem C6_select_send_email_resets_draft_witness :
    ∃ out, updateMainMenu brokenEnv ()
        { composeAt (str "a@b.com") (str "hi") (str "test") 2 with
            state := mainMenuState, cursor := 1 } (str "enter") = some out ∧
      out.cmd = Cmd.nil ∧ out.calls = [] ∧
      out.model.state = composeState ∧
      out.model.composeTo = [] ∧ out.model.composeSubject = [] ∧
      out.model.composeBody = [] ∧ out.model.composeField = 0 :=
  C6_select_send_email_resets_draft brokenEnv ()
    { composeAt (str "a@b.com") (str "hi") (str "test") 2 with
        state := mainMenuState, cursor := 1 } (str "enter") (Or.inl rfl) rfl

/-! ## The compose buffer -/

/-- A key text that is not a compose command reaches the `default:` arm. -/
theorem updateCompose_default {W : Type} (env : Env W) (w : W) (m : model)
    (key : GoString) (hnb : key ∉ composeCommands) :
    updateCompose env w m key = some ⟨insertText m key, Cmd.nil, w, []⟩ := by
  simp only [composeCommands, List.mem_cons, List.mem_singleton, not_or, List.not_mem_nil,
    not_false_eq_true, and_true] at hnb
  obtain ⟨h1, h2, h3, h4, h5, h6, h7⟩ := hnb
  simp only [updateCompose, if_neg h1, if_neg h2, if_neg h3, if_neg h4, if_neg h5, if_neg h6,
    if_neg h7]

/-- Every compose command is longer than one byte. -/
theorem composeCommands_long (key : GoString) (hk : key ∈ composeCommands) :
    1 < key.length := by
  simp only [composeCommands, List.mem_cons, List.mem_singleton, List.not_mem_nil,
    or_false] at hk
  rcases hk with rfl | rfl | rfl | rfl | rfl | rfl | rfl <;> decide

theorem insertText_one (m : model) (key : GoString) (hlen : key.length = 1) :
    insertText m key = withFocusedText m (focusedText m ++ key) := by
  have h1 : len key = 1 := by unfold len; omega
  unfold insertText withFocusedText focusedText
  rw [if_pos h1]
  split_ifs <;> rfl

theorem insertText_other (m : model) (key : GoString) (hlen : key.length ≠ 1) :
    insertText m key = m := by
  have h1 : ¬ len key = 1 := by unfold len; omega
  unfold insertText
  rw [if_neg h1]

/-- The text of a key event is at least as many bytes long as it has characters. -/
theorem flatMap_utf8_length_ge (cs : List Char) :
    cs.length ≤ (cs.flatMap String.utf8EncodeChar).length := by
  induction cs with
  | nil => simp
  | cons c cs ih =>
    have hc : 1 ≤ (String.utf8EncodeChar c).length := by
      rw [String.length_utf8EncodeChar]; exact Char.utf8Size_pos c
    simp only [List.length_cons, List.flatMap_cons, List.length_append]
    omega

/-- The text of a key event is at least as many bytes long as it has characters. -/
theorem str_length_ge (text : String) : text.length ≤ (str text).length :=
  flatMap_utf8_length_ge text.data

theorem updateCompose_backspace {W : Type} (env : Env W) (w : W) (m : model) :
    updateCompose env w m (str "backspace") =
      (backspace m).map (fun m1 => ⟨m1, Cmd.nil, w, []⟩) := by
  simp +decide [updateCompose]

theorem backspace_nonempty (m : model) (hne : focusedText m ≠ []) :
    backspace m = some (withFocusedText m (focusedText m).dropLast) := by
  unfold focusedText at hne
  unfold backspace withFocusedText focusedText
  split_ifs at hne ⊢ <;> first
    | (rw [sliceTo_dropLast _ (by assumption)]; rfl)
    | (exfalso
       rename_i hz
       exact hz ((len_pos_iff _).2 hne))
    | exact absurd rfl hne

theorem backspace_empty (m : model) (he : focusedText m = []) : backspace m = some m := by
  unfold focusedText at he
  unfold backspace
  split_ifs at he ⊢ <;> first
    | rfl
    | (exfalso
       rename_i hp
       rw [he] at hp
       exact absurd hp (by decide))

theorem focusedText_withFocusedText (m : model) (t : GoString)
    (hf : m.composeField = 0 ∨ m.composeField = 1 ∨ m.composeField = 2) :
    focusedText (withFocusedText m t) = t := by
  rcases hf with h | h | h <;> simp [focusedText, withFocusedText, h]

theorem withFocusedText_frame (m : model) (t : GoString) :
    (withFocusedText m t).state = m.state ∧
    (withFocusedText m t).cursor = m.cursor ∧
    (withFocusedText m t).emails = m.emails ∧
    (withFocusedText m t).currentEmail = m.currentEmail ∧
    (withFocusedText m t).composeField = m.composeField ∧
    (withFocusedText m t).width = m.width ∧
    (withFocusedText m t).height = m.height ∧
    (m.composeField ≠ 0 → (withFocusedText m t).composeTo = m.composeTo) ∧
    (m.composeField ≠ 1 → (withFocusedText m t).composeSubject = m.composeSubject) ∧
    (m.composeField ≠ 2 → (withFocusedText m t).composeBody = m.composeBody) := by
  unfold withFocusedText
  split_ifs <;> simp [*]

/-- C7, as amended: on the compose screen with the focus on one of the three
fields, a key whose text is exactly one byte long (a single character below
U+0080; no compose command is that short) is appended to the focused field's
text by `updateCompose`, with no call and no command; the other two draft
fields, the focused field, the screen, the cursor, the loaded messages, the
currently-viewed message and the window size are unchanged. -/
theorem C7_insert_one_byte_character {W : Type} (env : Env W) (w : W) (m : model)
    (key : GoString) (hlen : key.length = 1)
    (hf : m.composeField = 0 ∨ m.composeField = 1 ∨ m.composeField = 2) :
    ∃ out, updateCompose env w m key = some out ∧
      out.cmd = Cmd.nil ∧ out.world = w ∧ out.calls = [] ∧
      out.model = withFocusedText m (focusedText m ++ key) ∧
      focusedText out.model = focusedText m ++ key ∧
      out.model.state = m.state ∧ out.model.cursor = m.cursor ∧
      out.model.emails = m.emails ∧ out.model.currentEmail = m.currentEmail ∧
      out.model.composeField = m.composeField ∧
      out.model.width = m.width ∧ out.model.height = m.height ∧
      (m.composeField ≠ 0 → out.model.composeTo = m.composeTo) ∧
      (m.composeField ≠ 1 → out.model.composeSubject = m.composeSubject) ∧
      (m.composeField ≠ 2 → out.model.composeBody = m.composeBody) := by
  have hnb : key ∉ composeCommands := fun hk => by
    have := composeCommands_long key hk
    omega
  refine ⟨⟨withFocusedText m (focusedText m ++ key), Cmd.nil, w, []⟩, ?_, rfl, rfl, rfl, rfl,
    focusedText_withFocusedText m _ hf, withFocusedText_frame m _⟩
  rw [updateCompose_default env w m key hnb, insertText_one m key hlen]

/-- C7 at the scenario of the specification: "x" typed while the focus is on
the subject. -/
theorem C7_insert_one_byte_character_witness :
    ∃ out, updateCompose brokenEnv () (composeAt (str "a@b.com") (str "hi") (str "test") 1)
        (runeKey 'x') = some out ∧
      out.cmd = Cmd.nil ∧ out.world = () ∧ out.calls = [] ∧
      out.model = withFocusedText (composeAt (str "a@b.com") (str "hi") (str "test") 1)
        (focusedText (composeAt (str "a@b.com") (str "hi") (str "test") 1) ++ runeKey 'x') ∧
      focusedText out.model =
        focusedText (composeAt (str "a@b.com") (str "hi") (str "test") 1) ++ runeKey 'x' ∧
      out.model.state = (composeAt (str "a@b.com") (str "hi") (str "test") 1).state ∧
      out.model.cursor = (composeAt (str "a@b.com") (str "hi") (str "test") 1).cursor ∧
      out.model.emails = (composeAt (str "a@b.com") (str "hi") (str "test") 1).emails ∧
      out.model.currentEmail =
        (composeAt (str "a@b.com") (str "hi") (str "test") 1).currentEmail ∧
      out.model.composeField =
        (composeAt (str "a@b.com") (str "hi") (str "test") 1).composeField ∧
      out.model.width = (composeAt (str "a@b.com") (str "hi") (str "test") 1).width ∧
      out.model.height = (composeAt (str "a@b.com") (str "hi") (str "test") 1).height ∧
      ((composeAt (str "a@b.com") (str "hi") (str "test") 1).composeField ≠ 0 →
        out.model.composeTo = (composeAt (str "a@b.com") (str "hi") (str "test") 1).composeTo) ∧
      ((composeAt (str "a@b.com") (str "hi") (str "test") 1).composeField ≠ 1 →
        out.model.composeSubject =
          (composeAt (str "a@b.com") (str "hi") (str "test") 1).composeSubject) ∧
      ((composeAt (str "a@b.com") (str "hi") (str "test") 1).composeField ≠ 2 →
        out.model.composeBody =
          (composeAt (str "a@b.com") (str "hi") (str "test") 1).composeBody) :=
  C7_insert_one_byte_character brokenEnv ()
    (composeAt (str "a@b.com") (str "hi") (str "test") 1) (runeKey 'x') (by decide)
    (by decide)

/-- C7 as first stated fails: the single character U+00E9 (two bytes in UTF-8)
is bound to no compose command, yet typing it with the focus on the subject
returns the state unchanged, so the subject does not gain the character. -/
theorem C7_insert_character_counterexample :
    runeKey (Char.ofNat 233) = [195, 169] ∧
    runeKey (Char.ofNat 233) ∉ composeCommands ∧
    updateCompose brokenEnv () (composeAt (str "a@b.com") (str "hi") (str "test") 1)
        (runeKey (Char.ofNat 233)) =
      some ⟨composeAt (str "a@b.com") (str "hi") (str "test") 1, Cmd.nil, (), []⟩ ∧
    (composeAt (str "a@b.com") (str "hi") (str "test") 1).composeSubject ≠
      (composeAt (str "a@b.com") (str "hi") (str "test") 1).composeSubject ++
        runeKey (Char.ofNat 233) := by
  refine ⟨by decide, by decide, by decide, by decide⟩

/-- C8: on the compose screen a key whose text is longer than one character
(counted in bytes, or in Unicode characters, each of which takes at least one
byte) and is none of the compose commands ctrl+c, esc, tab, shift+tab, ctrl+s,
enter, backspace is rejected by `updateCompose`: the state is returned
unchanged, with no call and no command. -/
theorem C8_multi_character_input_rejected {W : Type} (env : Env W) (w : W) (m : model)
    (key : GoString)
    (hlen : 1 < key.length ∨ ∃ text : String, key = str text ∧ 1 < text.length)
    (hnb : key ∉ composeCommands) :
    updateCompose env w m key = some ⟨m, Cmd.nil, w, []⟩ := by
  have hbytes : 1 < key.length := by
    rcases hlen with h | ⟨text, rfl, h⟩
    · exact h
    · exact lt_of_lt_of_le h (str_length_ge text)
  rw [updateCompose_default env w m key hnb, insertText_other m key (by omega)]

/-- C8 at a concrete input: the arrow key "left" while a draft is edited. -/
theorem C8_multi_character_input_rejected_witness :
    updateCompose brokenEnv () (composeAt (str "a@b.com") (str "hi") (str "test") 2)
        (str "left") =
      some ⟨composeAt (str "a@b.com") (str "hi") (str "test") 2, Cmd.nil, (), []⟩ :=
  C8_multi_character_input_rejected brokenEnv ()
    (composeAt (str "a@b.com") (str "hi") (str "test") 2) (str "left")
    (Or.inr ⟨"left", rfl, by decide⟩) (by decide)

/-- C9: on the compose screen with the focus on one of the three fields and a
non-empty focused text, the backspace key of `updateCompose` does not panic and
removes exactly the last character (byte) `b` of the focused text: the new
focused text followed by `b` is the old one; the other two draft fields and
everything else in the model are unchanged. -/
theorem C9_backspace_removes_last_character {W : Type} (env : Env W) (w : W) (m : model)
    (hf : m.composeField = 0 ∨ m.composeField = 1 ∨ m.composeField = 2)
    (hne : focusedText m ≠ []) :
    ∃ out b, updateCompose env w m (str "backspace") = some out ∧
      out.cmd = Cmd.nil ∧ out.world = w ∧ out.calls = [] ∧
      out.model = withFocusedText m (focusedText m).dropLast ∧
      focusedText out.model ++ [b] = focusedText m ∧
      out.model.state = m.state ∧ out.model.cursor = m.cursor ∧
      out.model.emails = m.emails ∧ out.model.currentEmail = m.currentEmail ∧
      out.model.composeField = m.composeField ∧
      out.model.width = m.width ∧ out.model.height = m.height ∧
      (m.composeField ≠ 0 → out.model.composeTo = m.composeTo) ∧
      (m.composeField ≠ 1 → out.model.composeSubject = m.composeSubject) ∧
      (m.composeField ≠ 2 → out.model.composeBody = m.composeBody) := by
  refine ⟨⟨withFocusedText m (focusedText m).dropLast, Cmd.nil, w, []⟩,
    (focusedText m).getLast hne, ?_, rfl, rfl, rfl, rfl, ?_, withFocusedText_frame m _⟩
  · rw [updateCompose_backspace, backspace_nonempty m hne]; rfl
  · show focusedText (withFocusedText m (focusedText m).dropLast) ++ _ = _
    rw [focusedText_withFocusedText m _ hf]
    exact List.dropLast_append_getLast hne

/-- C9 at a concrete input: backspace in the body "test". -/
theorem C9_backspace_removes_last_character_witness :
    ∃ out b, updateCompose brokenEnv () (composeAt (str "a@b.com") (str "hi") (str "test") 2)
        (str "backspace") = some out ∧
      out.cmd = Cmd.nil ∧ out.world = () ∧ out.calls = [] ∧
      out.model = withFocusedText (composeAt (str "a@b.com") (str "hi") (str "test") 2)
        (focusedText (composeAt (str "a@b.com") (str "hi") (str "test") 2)).dropLast ∧
      focusedText out.model ++ [b] =
        focusedText (composeAt (str "a@b.com") (str "hi") (str "test") 2) ∧
      out.model.state = (composeAt (str "a@b.com") (str "hi") (str "test") 2).state ∧
      out.model.cursor = (composeAt (str "a@b.com") (str "hi") (str "test") 2).cursor ∧
      out.model.emails = (composeAt (str "a@b.com") (str "hi") (str "test") 2).emails ∧
      out.model.currentEmail =
        (composeAt (str "a@b.com") (str "hi") (str "test") 2).currentEmail ∧
      out.model.composeField =
        (composeAt (str "a@b.com") (str "hi") (str "test") 2).composeField ∧
      out.model.width = (composeAt (str "a@b.com") (str "hi") (str "test") 2).width ∧
      out.model.height = (composeAt (str "a@b.com") (str "hi") (str "test") 2).height ∧
      ((composeAt (str "a@b.com") (str "hi") (str "test") 2).composeField ≠ 0 →
        out.model.composeTo = (composeAt (str "a@b.com") (str "hi") (str "test") 2).composeTo) ∧
      ((composeAt (str "a@b.com") (str "hi") (str "test") 2).composeField ≠ 1 →
        out.model.composeSubject =
          (composeAt (str "a@b.com") (str "hi") (str "test") 2).composeSubject) ∧
      ((composeAt (str "a@b.com") (str "hi") (str "test") 2).composeField ≠ 2 →
        out.model.composeBody =
          (composeAt (str "a@b.com") (str "hi") (str "test") 2).composeBody) :=
  C9_backspace_removes_last_character brokenEnv ()
    (composeAt (str "a@b.com") (str "hi") (str "test") 2) (by decide) (by decide)

/-- C10: on the compose screen, when the focused field's text is empty, the
backspace key of `updateCompose` does not panic (no slice below zero is taken)
and returns the state unchanged, with no call and no command. -/
theorem C10_backspace_on_empty_is_noop {W : Type} (env : Env W) (w : W) (m : model)
    (hempty : focusedText m = []) :
    updateCompose env w m (str "backspace") = some ⟨m, Cmd.nil, w, []⟩ := by
  rw [updateCompose_backspace, backspace_empty m hempty]; rfl

/-- C10 at a concrete input: backspace in the empty recipient field of a draft
whose subject and body are filled. -/
theorem C10_backspace_on_empty_is_noop_witness :
    updateCompose brokenEnv () (composeAt [] (str "hi") (str "test") 0) (str "backspace") =
      some ⟨composeAt [] (str "hi") (str "test") 0, Cmd.nil, (), []⟩ :=
  C10_backspace_on_empty_is_noop brokenEnv () (composeAt [] (str "hi") (str "test") 0)
    (by decide)

/-! ## Moving the focus -/

theorem updateCompose_tab {W : Type} (env : Env W) (w : W) (m : model) :
    updateCompose env w m (str "tab") =
      if m.composeField < 2 then
        some ⟨{ m with composeField := m.composeField + 1 }, Cmd.nil, w, []⟩
      else some ⟨m, Cmd.nil, w, []⟩ := by
  simp +decide [updateCompose]

theorem updateCompose_shift_tab {W : Type} (env : Env W) (w : W) (m : model) :
    updateCompose env w m (str "shift+tab") =
      if m.composeField > 0 then
        some ⟨{ m with composeField := m.composeField - 1 }, Cmd.nil, w, []⟩
      else some ⟨m, Cmd.nil, w, []⟩ := by
  simp +decide [updateCompose]

theorem updateCompose_enter {W : Type} (env : Env W) (w : W) (m : model) :
    updateCompose env w m (str "enter") =
      if m.composeField = 2 then
        some ⟨{ m with composeBody := m.composeBody ++ str "\n" }, Cmd.nil, w, []⟩
      else if m.composeField < 2 then
        some ⟨{ m with composeField := m.composeField + 1 }, Cmd.nil, w, []⟩
      else some ⟨m, Cmd.nil, w, []⟩ := by
  simp +decide [updateCompose]

theorem updateCompose_ctrl_s {W : Type} (env : Env W) (w : W) (m : model) :
    updateCompose env w m (str "ctrl+s") =
      if (env.sendEmail m.composeTo m.composeSubject m.composeBody w).1 = true then
        some ⟨{ m with state := mainMenuState, cursor := 0 }, Cmd.nil,
              (env.sendEmail m.composeTo m.composeSubject m.composeBody w).2,
              [Call.sendEmail m.composeTo m.composeSubject m.composeBody]⟩
      else
        some ⟨m, Cmd.nil,
              (env.sendEmail m.composeTo m.composeSubject m.composeBody w).2,
              [Call.sendEmail m.composeTo m.composeSubject m.composeBody]⟩ := by
  simp +decide [updateCompose]

/-- C11: on the compose screen with the focus on one of the three fields, "tab"
moves the focus one field forward (0 to 1, 1 to 2) and returns the state
unchanged when the focus is on the body (2); "shift+tab" moves it one field
back (2 to 1, 1 to 0) and returns the state unchanged when the focus is on the
recipient (0). Only `composeField` is ever assigned, so no draft text changes,
and no call is made. -/
theorem C11_field_advance_and_retreat {W : Type} (env : Env W) (w : W) (m : model)
    (hf : m.composeField = 0 ∨ m.composeField = 1 ∨ m.composeField = 2) :
    updateCompose env w m (str "tab") =
      some ⟨if m.composeField = 2 then m
            else { m with composeField := m.composeField + 1 }, Cmd.nil, w, []⟩ ∧
    updateCompose env w m (str "shift+tab") =
      some ⟨if m.composeField = 0 then m
            else { m with composeField := m.composeField - 1 }, Cmd.nil, w, []⟩ := by
  rw [updateCompose_tab, updateCompose_shift_tab]
  rcases hf with h | h | h <;> simp [h]

/-- C11 at a concrete input: the focus on the body, where "tab" is a no-op. -/
theorem C11_field_advance_and_retreat_witness :
    updateCompose brokenEnv () (composeAt (str "a@b.com") (str "hi") (str "test") 2)
        (str "tab") =
      some ⟨if (composeAt (str "a@b.com") (str "hi") (str "test") 2).composeField = 2 then
              composeAt (str "a@b.com") (str "hi") (str "test") 2
            else { composeAt (str "a@b.com") (str "hi") (str "test") 2 with
                     composeField :=
                       (composeAt (str "a@b.com") (str "hi") (str "test") 2).composeField + 1 },
            Cmd.nil, (), []⟩ ∧
    updateCompose brokenEnv () (composeAt (str "a@b.com") (str "hi") (str "test") 2)
        (str "shift+tab") =
      some ⟨if (composeAt (str "a@b.com") (str "hi") (str "test") 2).composeField = 0 then
              composeAt (str "a@b.com") (str "hi") (str "test") 2
            else { composeAt (str "a@b.com") (str "hi") (str "test") 2 with
                     composeField :=
                       (composeAt (str "a@b.com") (str "hi") (str "test") 2).composeField - 1 },
            Cmd.nil, (), []⟩ :=
  C11_field_advance_and_retreat brokenEnv ()
    (composeAt (str "a@b.com") (str "hi") (str "test") 2) (by decide)

/-- C12: on the compose screen with the focus on one of the three fields,
"enter" with the focus on the body appends exactly one line break (the byte
10) to the body and changes nothing else; with the focus on the recipient or
the subject it returns exactly what "tab" returns from the same state, and no
draft text changes. No call is made in either case. -/
theorem C12_enter_newline_or_advance {W : Type} (env : Env W) (w : W) (m : model)
    (hf : m.composeField = 0 ∨ m.composeField = 1 ∨ m.composeField = 2) :
    ∃ out, updateCompose env w m (str "enter") = some out ∧
      out.cmd = Cmd.nil ∧ out.world = w ∧ out.calls = [] ∧
      (m.composeField = 2 →
        out.model = { m with composeBody := m.composeBody ++ [10] }) ∧
      (m.composeField ≠ 2 →
        updateCompose env w m (str "tab") = some out ∧
        out.model = { m with composeField := m.composeField + 1 } ∧
        out.model.composeTo = m.composeTo ∧
        out.model.composeSubject = m.composeSubject ∧
        out.model.composeBody = m.composeBody) := by
  rw [updateCompose_enter, updateCompose_tab]
  by_cases h2 : m.composeField = 2
  · exact ⟨⟨{ m with composeBody := m.composeBody ++ [10] }, Cmd.nil, w, []⟩,
      by rw [if_pos h2]; rfl, rfl, rfl, rfl, fun _ => rfl, fun hne => absurd h2 hne⟩
  · have hlt : m.composeField < 2 := by omega
    refine ⟨⟨{ m with composeField := m.composeField + 1 }, Cmd.nil, w, []⟩, ?_, rfl, rfl, rfl,
      fun h => absurd h h2, fun _ => ⟨?_, rfl, rfl, rfl, rfl⟩⟩
    · rw [if_neg h2, if_pos hlt]
    · rw [if_pos hlt]

/-- C12 at a concrete input: "enter" in the subject field. -/
theorem C12_enter_newline_or_advance_witness :
    ∃ out, updateCompose brokenEnv () (composeAt (str "a@b.com") (str "hi") (str "test") 1)
        (str "enter") = some out ∧
      out.cmd = Cmd.nil ∧ out.world = () ∧ out.calls = [] ∧
      ((composeAt (str "a@b.com") (str "hi") (str "test") 1).composeField = 2 →
        out.model = { composeAt (str "a@b.com") (str "hi") (str "test") 1 with
          composeBody :=
            (composeAt (str "a@b.com") (str "hi") (str "test") 1).composeBody ++ [10] }) ∧
      ((composeAt (str "a@b.com") (str "hi") (str "test") 1).composeField ≠ 2 →
        updateCompose brokenEnv () (composeAt (str "a@b.com") (str "hi") (str "test") 1)
          (str "tab") = some out ∧
        out.model = { composeAt (str "a@b.com") (str "hi") (str "test") 1 with
          composeField :=
            (composeAt (str "a@b.com") (str "hi") (str "test") 1).composeField + 1 } ∧
        out.model.composeTo = (composeAt (str "a@b.com") (str "hi") (str "test") 1).composeTo ∧
        out.model.composeSubject =
          (composeAt (str "a@b.com") (str "hi") (str "test") 1).composeSubject ∧
        out.model.composeBody =
          (composeAt (str "a@b.com") (str "hi") (str "test") 1).composeBody) :=
  C12_enter_newline_or_advance brokenEnv ()
    (composeAt (str "a@b.com") (str "hi") (str "test") 1) (by decide)

/-! ## Sending the draft -/

/-- C13: on the compose screen "ctrl+s" makes exactly one call, `sendEmail`
with the recipient, subject and body of the draft in this order, and when that
call returns no error the resulting state has screen `mainMenuState` and
cursor 0. -/
theorem C13_submit_calls_transport_once {W : Type} (env : Env W) (w : W) (m : model) :
    ∃ out, updateCompose env w m (str "ctrl+s") = some out ∧
      out.calls = [Call.sendEmail m.composeTo m.composeSubject m.composeBody] ∧
      out.world = (env.sendEmail m.composeTo m.composeSubject m.composeBody w).2 ∧
      out.cmd = Cmd.nil ∧
      ((env.sendEmail m.composeTo m.composeSubject m.composeBody w).1 = true →
        out.model.state = mainMenuState ∧ out.model.cursor = 0) := by
  rw [updateCompose_ctrl_s]
  by_cases h : (env.sendEmail m.composeTo m.composeSubject m.composeBody w).1 = true
  · rw [if_pos h]; exact ⟨_, rfl, rfl, rfl, rfl, fun _ => ⟨rfl, rfl⟩⟩
  · rw [if_neg h]; exact ⟨_, rfl, rfl, rfl, rfl, fun h1 => absurd h1 h⟩

/-- C13 at the scenario of the specification: the draft a@b.com / hi / test
is submitted and the send succeeds. -/
theorem C13_submit_calls_transport_once_witness :
    ∃ out, updateCompose maildirEnv threeMails
        (composeAt (str "a@b.com") (str "hi") (str "test") 2) (str "ctrl+s") = some out ∧
      out.calls = [Call.sendEmail (str "a@b.com") (str "hi") (str "test")] ∧
      out.world = (maildirEnv.sendEmail (str "a@b.com") (str "hi") (str "test") threeMails).2 ∧
      out.cmd = Cmd.nil ∧
      ((maildirEnv.sendEmail (str "a@b.com") (str "hi") (str "test") threeMails).1 = true →
        out.model.state = mainMenuState ∧ out.model.cursor = 0) :=
  C13_submit_calls_transport_once maildirEnv threeMails
    (composeAt (str "a@b.com") (str "hi") (str "test") 2)

/-- C14: on the compose screen, when the `sendEmail` call made by "ctrl+s"
returns an error, `updateCompose` returns the model it was given: the screen
is still the compose screen and recipient, subject, body and focused field are
untouched. The one call stays in the log. -/
theorem C14_submit_failure_keeps_draft {W : Type} (env : Env W) (w : W) (m : model)
    (hfail : (env.sendEmail m.composeTo m.composeSubject m.composeBody w).1 = false) :
    updateCompose env w m (str "ctrl+s") =
      some ⟨m, Cmd.nil, (env.sendEmail m.composeTo m.composeSubject m.composeBody w).2,
            [Call.sendEmail m.composeTo m.composeSubject m.composeBody]⟩ := by
  rw [updateCompose_ctrl_s, if_neg (by rw [hfail]; decide)]

/-- C14 at a concrete input: the transport fails for the draft a@b.com / hi /
test. -/
theorem C14_submit_failure_keeps_draft_witness :
    updateCompose brokenEnv () (composeAt (str "a@b.com") (str "hi") (str "test") 2)
        (str "ctrl+s") =
      some ⟨composeAt (str "a@b.com") (str "hi") (str "test") 2, Cmd.nil,
            (brokenEnv.sendEmail (composeAt (str "a@b.com") (str "hi") (str "test") 2).composeTo
              (composeAt (str "a@b.com") (str "hi") (str "test") 2).composeSubject
              (composeAt (str "a@b.com") (str "hi") (str "test") 2).composeBody ()).2,
            [Call.sendEmail (composeAt (str "a@b.com") (str "hi") (str "test") 2).composeTo
              (composeAt (str "a@b.com") (str "hi") (str "test") 2).composeSubject
              (composeAt (str "a@b.com") (str "hi") (str "test") 2).composeBody]⟩ :=
  C14_submit_failure_keeps_draft brokenEnv ()
    (composeAt (str "a@b.com") (str "hi") (str "test") 2) rfl

/-- C15, as amended: on the compose screen, when "ctrl+s" succeeds the state
returned by `updateCompose` is the given one with the screen set to
`mainMenuState` and the cursor to 0 and nothing else assigned: recipient,
subject and body still hold the texts that were sent. -/
theorem C15_submit_success_keeps_texts {W : Type} (env : Env W) (w : W) (m : model)
    (hok : (env.sendEmail m.composeTo m.composeSubject m.composeBody w).1 = true) :
    ∃ out, updateCompose env w m (str "ctrl+s") = some out ∧
      out.model = { m with state := mainMenuState, cursor := 0 } ∧
      out.model.composeTo = m.composeTo ∧
      out.model.composeSubject = m.composeSubject ∧
      out.model.composeBody = m.composeBody ∧
      out.model.composeField = m.composeField := by
  rw [updateCompose_ctrl_s, if_pos hok]
  exact ⟨_, rfl, rfl, rfl, rfl, rfl, rfl⟩

/-- C15 at a concrete input: the draft a@b.com / hi / test sent with success. -/
theorem C15_submit_success_keeps_texts_witness :
    ∃ out, updateCompose maildirEnv threeMails
        (composeAt (str "a@b.com") (str "hi") (str "test") 2) (str "ctrl+s") = some out ∧
      out.model = { composeAt (str "a@b.com") (str "hi") (str "test") 2 with
        state := mainMenuState, cursor := 0 } ∧
      out.model.composeTo = (composeAt (str "a@b.com") (str "hi") (str "test") 2).composeTo ∧
      out.model.composeSubject =
        (composeAt (str "a@b.com") (str "hi") (str "test") 2).composeSubject ∧
      out.model.composeBody =
        (composeAt (str "a@b.com") (str "hi") (str "test") 2).composeBody ∧
      out.model.composeField =
        (composeAt (str "a@b.com") (str "hi") (str "test") 2).composeField :=
  C15_submit_success_keeps_texts maildirEnv threeMails
    (composeAt (str "a@b.com") (str "hi") (str "test") 2) rfl

/-- C15 as first stated fails: after the draft a@b.com / hi / test is sent
with success, the returned state is on the main menu with cursor 0 and its
recipient, subject and body are still those texts, not empty. -/
theorem C15_submit_success_counterexample :
    (updateCompose maildirEnv threeMails
        (composeAt (str "a@b.com") (str "hi") (str "test") 2) (str "ctrl+s")).map
      (fun out => (out.model.state, out.model.cursor, out.model.composeTo,
        out.model.composeSubject, out.model.composeBody)) =
    some (mainMenuState, 0, str "a@b.com", str "hi", str "test") ∧
    str "a@b.com" ≠ [] ∧ str "hi" ≠ [] ∧ str "test" ≠ [] := by
  refine ⟨by decide, by decide, by decide, by decide⟩

/-! ## The currently-viewed message -/

theorem updateMainMenu_viewHasMail {W : Type} (env : Env W) (w : W) (m : model)
    (key : GoString) (out : Outcome W) (hs : m.state = mainMenuState)
    (h : updateMainMenu env w m key = some out) : ViewHasMail out.model := by
  unfold updateMainMenu at h
  split_ifs at h <;> (cases h; simp [ViewHasMail, hs])

theorem updateEmailList_viewHasMail {W : Type} (env : Env W) (w : W) (m : model)
    (key : GoString) (out : Outcome W) (hs : m.state = emailListState)
    (h : updateEmailList env w m key = some out) : ViewHasMail out.model := by
  unfold updateEmailList at h
  split_ifs at h <;> first
    | (cases h; simp [ViewHasMail, hs])
    | (split at h
       · cases h
       · cases h; simp [ViewHasMail, hs, clampCursor_state])

theorem updateEmailView_viewHasMail {W : Type} (env : Env W) (w : W) (m : model)
    (key : GoString) (out : Outcome W) (hv : ViewHasMail m)
    (h : updateEmailView env w m key = some out) : ViewHasMail out.model := by
  unfold updateEmailView at h
  split_ifs at h <;> first
    | (cases h; exact hv)
    | (cases h; simp [ViewHasMail])
    | (split at h <;> cases h
       · exact hv
       · simp [ViewHasMail, clampCursor_state])

theorem insertText_state (m : model) (key : GoString) : (insertText m key).state = m.state := by
  unfold insertText; split_ifs <;> rfl

theorem updateCompose_viewHasMail {W : Type} (env : Env W) (w : W) (m : model)
    (key : GoString) (out : Outcome W) (hs : m.state = composeState)
    (h : updateCompose env w m key = some out) : ViewHasMail out.model := by
  unfold updateCompose at h
  split_ifs at h <;> first
    | (cases h; simp [ViewHasMail, hs]; done)
    | (obtain ⟨m1, hb, hst, _⟩ := backspace_some m
       rw [hb] at h
       cases h
       simp [ViewHasMail, hst, hs])
    | (cases h; simp [ViewHasMail, insertText_state, hs])

theorem Update_viewHasMail {W : Type} (env : Env W) (w : W) (m : model) (msg : Msg)
    (out : Outcome W) (hv : ViewHasMail m) (h : Update env w m msg = some out) :
    ViewHasMail out.model := by
  cases msg with
  | WindowSizeMsg wd ht => cases h; exact hv
  | other => cases h; exact hv
  | KeyMsg key =>
    unfold Update at h
    cases hs : m.state with
    | mainMenuState => rw [hs] at h; exact updateMainMenu_viewHasMail env w m key out hs h
    | emailListState => rw [hs] at h; exact updateEmailList_viewHasMail env w m key out hs h
    | emailViewState => rw [hs] at h; exact updateEmailView_viewHasMail env w m key out hv h
    | composeState => rw [hs] at h; exact updateCompose_viewHasMail env w m key out hs h

/-- The event loop started in a good state where the view has its message
never panics and ends in such a state again. -/
theorem runWith_Update_good_view {W : Type} (env : Env W) (msgs : List Msg) (w : W)
    (m : model) (hg : Good m) (hv : ViewHasMail m) :
    ∃ w1 m1 c, runWith (Update env) w m msgs = some (w1, m1, c) ∧
      Good m1 ∧ ViewHasMail m1 := by
  induction msgs generalizing w m with
  | nil => exact ⟨w, m, Cmd.nil, rfl, hg, hv⟩
  | cons msg rest ih =>
    obtain ⟨out, hout, hgood⟩ := Update_good env w m msg hg
    have hview := Update_viewHasMail env w m msg out hv hout
    cases hc : out.cmd with
    | quit =>
      exact ⟨out.world, out.model, Cmd.quit, by simp only [runWith, hout, hc], hgood, hview⟩
    | nil =>
      obtain ⟨w1, m1, c, hrun, hg1, hv1⟩ := ih out.world out.model hgood hview
      exact ⟨w1, m1, c, by simp only [runWith, hout, hc]; exact hrun, hg1, hv1⟩

theorem updateEmailView_back {W : Type} (env : Env W) (w : W) (m : model) (key : GoString)
    (hkey : key = str "b" ∨ key = str "esc") :
    updateEmailView env w m key = some ⟨{ m with state := emailListState }, Cmd.nil, w, []⟩ := by
  rcases hkey with rfl | rfl <;> simp +decide [updateEmailView]

/-- C16, as amended: on the message view the back keys ("b", "esc") of
`updateEmailView` yield the screen `emailListState` and assign nothing else,
so the currently-viewed message stays as it was; and in every state reached
from `initialModel` by any messages through `Update`, under any store and
transport, a currently-viewed message is set whenever the screen is the
message view. -/
theorem C16_back_keeps_viewed_message {W : Type} (env : Env W) (w : W) (m : model)
    (key : GoString) (hkey : key = str "b" ∨ key = str "esc") (w0 : W) (msgs : List Msg) :
    (∃ out, updateEmailView env w m key = some out ∧
      out.model = { m with state := emailListState } ∧
      out.model.state = emailListState ∧
      out.model.currentEmail = m.currentEmail ∧
      out.cmd = Cmd.nil ∧ out.world = w ∧ out.calls = []) ∧
    (∃ w1 m1 c, run env w0 initialModel msgs = some (w1, m1, c) ∧
      (m1.state = emailViewState → m1.currentEmail ≠ none)) := by
  constructor
  · exact ⟨_, updateEmailView_back env w m key hkey, rfl, rfl, rfl, rfl, rfl, rfl⟩
  · obtain ⟨w1, m1, c, hrun, _, hv⟩ :=
      runWith_Update_good_view env msgs w0 initialModel good_initialModel (by decide)
    exact ⟨w1, m1, c, hrun, hv⟩

/-- C16 at a concrete input: the first of three messages is opened and the
view is left with "b". -/
theorem C16_back_keeps_viewed_message_witness :
    (∃ out, updateEmailView maildirEnv threeMails (viewAt 0 (sampleMail "m1")) (str "b") =
        some out ∧
      out.model = { viewAt 0 (sampleMail "m1") with state := emailListState } ∧
      out.model.state = emailListState ∧
      out.model.currentEmail = (viewAt 0 (sampleMail "m1")).currentEmail ∧
      out.cmd = Cmd.nil ∧ out.world = threeMails ∧ out.calls = []) ∧
    (∃ w1 m1 c, run maildirEnv threeMails initialModel
        [Msg.KeyMsg (str "enter"), Msg.KeyMsg (str "enter")] = some (w1, m1, c) ∧
      (m1.state = emailViewState → m1.currentEmail ≠ none)) :=
  C16_back_keeps_viewed_message maildirEnv threeMails (viewAt 0 (sampleMail "m1")) (str "b")
    (Or.inl rfl) threeMails [Msg.KeyMsg (str "enter"), Msg.KeyMsg (str "enter")]

/-- C16 as first stated fails: the list is opened, the first message is
selected and the view is left with "b". The session is then on the message
list and the currently-viewed message is still set. -/
theorem C16_back_counterexample :
    (run maildirEnv threeMails initialModel
        [Msg.KeyMsg (str "enter"), Msg.KeyMsg (str "enter"), Msg.KeyMsg (str "b")]).map
      (fun r => (r.2.1.state, r.2.1.currentEmail, decide (ViewedOnlyInView r.2.1))) =
    some (emailListState, some (sampleMail "m1"), false) := by
  decide

/-! ## Opening the message list -/

theorem getEmails_readDir_fails {W : Type} (d : Dir W) (w : W)
    (h : d.readDir (d.maildir w) w = none) : getEmails d w = none := by
  unfold getEmails; rw [h]

/-- C17: on the main menu with cursor 0 the select keys ("enter", " ") of
`updateMainMenu` call `getEmails` once and return the screen `emailListState`
with cursor 0 and with `emails` equal to the sequence that call returned, in
its order; when the call fails (it returns `nil` and an error, as the source
function does when the directory cannot be read) the list is empty and the
transition is made all the same. -/
theorem C17_select_view_emails {W : Type} (env : Env W) (w : W) (m : model)
    (key : GoString) (hkey : key = str "enter" ∨ key = str " ") (hc : m.cursor = 0) :
    ∃ out, updateMainMenu env w m key = some out ∧
      out.cmd = Cmd.nil ∧ out.calls = [Call.getEmails] ∧
      out.world = (env.getEmails w).2 ∧
      out.model.state = emailListState ∧ out.model.cursor = 0 ∧
      (∀ l, (env.getEmails w).1 = some l → out.model.emails = l) ∧
      ((env.getEmails w).1 = none → out.model.emails = []) ∧
      (∀ d : Dir W, (env.getEmails w).1 = getEmails d w →
        d.readDir (d.maildir w) w = none → out.model.emails = []) := by
  refine ⟨⟨{ m with emails := listed (env.getEmails w).1, state := emailListState,
                    cursor := 0 }, Cmd.nil, (env.getEmails w).2, [Call.getEmails]⟩,
    ?_, rfl, rfl, rfl, rfl, rfl, ?_, ?_, ?_⟩
  · rcases hkey with rfl | rfl <;> simp +decide [updateMainMenu, hc]
  · intro l hl; simp [listed, hl]
  · intro hn; simp [listed, hn]
  · intro d hd hfail
    simp [listed, hd, getEmails_readDir_fails d w hfail]

/-- C17 at the scenario of the specification: three messages are listed. -/
theorem C17_select_view_emails_witness :
    ∃ out, updateMainMenu maildirEnv threeMails initialModel (str "enter") = some out ∧
      out.cmd = Cmd.nil ∧ out.calls = [Call.getEmails] ∧
      out.world = (maildirEnv.getEmails threeMails).2 ∧
      out.model.state = emailListState ∧ out.model.cursor = 0 ∧
      (∀ l, (maildirEnv.getEmails threeMails).1 = some l → out.model.emails = l) ∧
      ((maildirEnv.getEmails threeMails).1 = none → out.model.emails = []) ∧
      (∀ d : Dir (List Email), (maildirEnv.getEmails threeMails).1 = getEmails d threeMails →
        d.readDir (d.maildir threeMails) threeMails = none → out.model.emails = []) :=
  C17_select_view_emails maildirEnv threeMails initialModel (str "enter") (Or.inl rfl) rfl

/-! ## A deletion that fails -/

/-- C18, as amended: in a message list with a valid cursor, when the
`os.Remove` requested by the delete key fails, `updateEmailList` still
re-lists; the result is on `emailListState` and its `emails` are whatever the
re-listing returns (empty when it fails). They are the list before the
transition, with the cursor unmoved, whenever the re-listing returns that list
again. -/
theorem C18_failed_delete_relists {W : Type} (env : Env W) (w : W) (m : model)
    (hstate : m.state = emailListState)
    (hlo : 0 ≤ m.cursor) (hhi : m.cursor < len m.emails)
    (hfail : ∀ e, index m.emails m.cursor = some e → (env.osRemove e.Filename w).1 = false) :
    ∃ e out, index m.emails m.cursor = some e ∧
      (env.osRemove e.Filename w).1 = false ∧
      updateEmailList env w m (str "d") = some out ∧
      out.calls = [Call.osRemove e.Filename, Call.getEmails] ∧
      out.cmd = Cmd.nil ∧
      out.model.state = emailListState ∧
      out.model.emails = listed (env.getEmails (env.osRemove e.Filename w).2).1 ∧
      ((env.getEmails (env.osRemove e.Filename w).2).1 = some m.emails →
        out.model.emails = m.emails ∧ out.model.cursor = m.cursor) := by
  obtain ⟨e, he, _⟩ := index_some m.emails m.cursor hlo hhi
  have hpos : len m.emails > 0 := by omega
  refine ⟨e, _, he, hfail e he, by simp +decide [updateEmailList, hpos, hhi, he]; rfl, rfl, rfl,
    ?_, ?_, ?_⟩
  · simp only [clampCursor_state]; exact hstate
  · simp only [clampCursor_emails]
  · intro hsame
    simp only [clampCursor_emails, hsame, listed, Option.getD_some, true_and]
    have hne : m.emails ≠ [] := (len_pos_iff _).1 hpos
    rw [clampCursor_cursor_nonempty { m with emails := m.emails } hne]
    exact min_eq_left (by show m.cursor ≤ len m.emails - 1; omega)

/-- C18 at a concrete input: the file of the second message cannot be removed
because the store cannot be written, and the re-listing returns the same three
messages. -/
theorem C18_failed_delete_relists_witness :
    ∃ e out, index (listAt 1).emails (listAt 1).cursor = some e ∧
      (readOnlyEnv.osRemove e.Filename threeMails).1 = false ∧
      updateEmailList readOnlyEnv threeMails (listAt 1) (str "d") = some out ∧
      out.calls = [Call.osRemove e.Filename, Call.getEmails] ∧
      out.cmd = Cmd.nil ∧
      out.model.state = emailListState ∧
      out.model.emails =
        listed (readOnlyEnv.getEmails (readOnlyEnv.osRemove e.Filename threeMails).2).1 ∧
      ((readOnlyEnv.getEmails (readOnlyEnv.osRemove e.Filename threeMails).2).1 =
          some (listAt 1).emails →
        out.model.emails = (listAt 1).emails ∧ out.model.cursor = (listAt 1).cursor) :=
  C18_failed_delete_relists readOnlyEnv threeMails (listAt 1) rfl (by decide) (by decide)
    (fun _ _ => rfl)

/-- C18 as first stated fails: the list still shows three messages, but the
file of the second one is already gone from the store. The delete key on it
fails to remove anything, and the list returned is the re-listed one, of two
messages, not the list before the transition. -/
theorem C18_failed_delete_counterexample :
    (maildirEnv.osRemove (sampleMail "m2").Filename [sampleMail "m1", sampleMail "m3"]).1 =
      false ∧
    (updateEmailList maildirEnv [sampleMail "m1", sampleMail "m3"] (listAt 1) (str "d")).map
        (fun out => (out.model.state, out.model.emails)) =
      some (emailListState, [sampleMail "m1", sampleMail "m3"]) ∧
    (listAt 1).emails = [sampleMail "m1", sampleMail "m2", sampleMail "m3"] ∧
    [sampleMail "m1", sampleMail "m3"] ≠ (listAt 1).emails := by
  refine ⟨by decide, by decide, by decide, by decide⟩

/-! ## Keys without a row in the transition table -/

theorem updateMainMenu_no_row {W : Type} (env : Env W) (w : W) (m : model) (key : GoString)
    (hq : ¬ quitKey key) (hu : ¬ upKey key) (hd : ¬ downKey key)
    (hsel : selectKey key → ¬ (m.cursor = 0 ∨ m.cursor = 1 ∨ m.cursor = 2)) :
    updateMainMenu env w m key = some ⟨m, Cmd.nil, w, []⟩ := by
  unfold updateMainMenu
  rw [if_neg hq, if_neg hu, if_neg hd]
  by_cases hs : selectKey key
  · have hc := hsel hs
    rw [if_pos hs, if_neg (fun h => hc (Or.inl h)), if_neg (fun h => hc (Or.inr (Or.inl h))),
      if_neg (fun h => hc (Or.inr (Or.inr h)))]
  · rw [if_neg hs]

theorem updateEmailList_no_row {W : Type} (env : Env W) (w : W) (m : model) (key : GoString)
    (hq : ¬ quitKey key) (hb : ¬ backKey key) (hu : ¬ upKey key) (hd : ¬ downKey key)
    (hcur : 0 ≤ m.cursor)
    (hsel : selectKey key ∨ deleteKey key →
      ¬ (m.emails ≠ [] ∧ 0 ≤ m.cursor ∧ m.cursor < len m.emails)) :
    updateEmailList env w m key = some ⟨m, Cmd.nil, w, []⟩ := by
  have hguard : selectKey key ∨ deleteKey key →
      ¬ (len m.emails > 0 ∧ m.cursor < len m.emails) := by
    intro hk hg
    exact hsel hk ⟨(len_pos_iff _).1 hg.1, hcur, hg.2⟩
  unfold updateEmailList
  rw [if_neg hq, if_neg hb, if_neg hu, if_neg hd]
  by_cases hs : selectKey key
  · rw [if_pos hs, if_neg (hguard (Or.inl hs))]
  · rw [if_neg hs]
    by_cases hdel : deleteKey key
    · rw [if_pos hdel, if_neg (hguard (Or.inr hdel))]
    · rw [if_neg hdel]

theorem updateEmailView_no_row {W : Type} (env : Env W) (w : W) (m : model) (key : GoString)
    (hq : ¬ quitKey key) (hb : ¬ backKey key) (hd : ¬ deleteKey key) :
    updateEmailView env w m key = some ⟨m, Cmd.nil, w, []⟩ := by
  unfold updateEmailView
  rw [if_neg hq, if_neg hb, if_neg hd]

/-- C19: on the main menu, the message list and the message view, in a state
whose cursor is not negative (as in every state the session reaches), a key
that matches no row of the transition table for that screen is a no-op of
`Update`: the model is returned unchanged, with the command `nil` (no
termination) and no call. This covers select and delete on an empty message
list or with the cursor past its end, select on the main menu with a cursor
outside 0..2, and up, down and select on the message view. -/
theorem C19_unmatched_key_is_noop {W : Type} (env : Env W) (w : W) (m : model)
    (key : GoString) (hscreen : m.state ≠ composeState) (hcur : 0 ≤ m.cursor)
    (hno : ¬ rowMatches m key) :
    Update env w m (Msg.KeyMsg key) = some ⟨m, Cmd.nil, w, []⟩ := by
  have hq : ¬ quitKey key := fun h => hno (Or.inl h)
  have hmain := fun h => hno (Or.inr (Or.inl h))
  have hlist := fun h => hno (Or.inr (Or.inr (Or.inl h)))
  have hview := fun h => hno (Or.inr (Or.inr (Or.inr h)))
  unfold Update
  cases hs : m.state with
  | composeState => exact absurd hs hscreen
  | mainMenuState =>
    have h1 := fun h => hmain ⟨hs, h⟩
    exact updateMainMenu_no_row env w m key hq (fun h => h1 (Or.inl h))
      (fun h => h1 (Or.inr (Or.inl h))) (fun hk hc => h1 (Or.inr (Or.inr ⟨hk, hc⟩)))
  | emailListState =>
    have h1 := fun h => hlist ⟨hs, h⟩
    exact updateEmailList_no_row env w m key hq (fun h => h1 (Or.inr (Or.inr (Or.inl h))))
      (fun h => h1 (Or.inl h)) (fun h => h1 (Or.inr (Or.inl h))) hcur
      (fun hk hc => h1 (Or.inr (Or.inr (Or.inr ⟨hk, hc⟩))))
  | emailViewState =>
    have h1 := fun h => hview ⟨hs, h⟩
    exact updateEmailView_no_row env w m key hq (fun h => h1 (Or.inl h))
      (fun h => h1 (Or.inr h))

/-- C19 at a concrete input: the delete key on an empty message list. -/
theorem C19_unmatched_key_is_noop_witness :
    Update brokenEnv () (listOf [] 0) (Msg.KeyMsg (str "d")) =
      some ⟨listOf [] 0, Cmd.nil, (), []⟩ :=
  C19_unmatched_key_is_noop brokenEnv () (listOf [] 0) (str "d") (by decide) (by decide)
    (by decide)

/-! ## Indexing the list -/

/-- C20: in every state reached from `initialModel` by any sequence of
messages through `Update`, under any store and transport, no step panics and
the cursor is not negative; hence the index `m.emails[m.cursor]`, taken by
select and delete in `updateEmailList` under the guard `len(m.emails) > 0 &&
m.cursor < len(m.emails)`, is within bounds, and `updateEmailList` returns for
every key. -/
theorem C20_cursor_never_negative {W : Type} (env : Env W) (w : W) (msgs : List Msg) :
    ∃ w1 m1 c, run env w initialModel msgs = some (w1, m1, c) ∧
      0 ≤ m1.cursor ∧
      (len m1.emails > 0 ∧ m1.cursor < len m1.emails →
        ∃ e, index m1.emails m1.cursor = some e) ∧
      (m1.state = emailListState →
        ∀ (key : GoString) (w2 : W), ∃ out, updateEmailList env w2 m1 key = some out) := by
  obtain ⟨w1, m1, c, hrun, hg⟩ := runWith_Update_good env msgs w initialModel good_initialModel
  refine ⟨w1, m1, c, hrun, hg.1, ?_, ?_⟩
  · intro hguard
    obtain ⟨e, he, _⟩ := index_some m1.emails m1.cursor hg.1 hguard.2
    exact ⟨e, he⟩
  · intro hs key w2
    obtain ⟨out, hout, _⟩ := updateEmailList_good env w2 m1 key hg hs
    exact ⟨out, hout⟩

/-- C20 at a concrete input: the list of three messages is opened, the cursor
is moved down twice and the delete key is pressed while the store fails. -/
theorem C20_cursor_never_negative_witness :
    ∃ w1 m1 c, run vanishingEnv 0 initialModel
        ([str "enter", str "j", str "j", str "d", str "enter"].map Msg.KeyMsg) =
        some (w1, m1, c) ∧
      0 ≤ m1.cursor ∧
      (len m1.emails > 0 ∧ m1.cursor < len m1.emails →
        ∃ e, index m1.emails m1.cursor = some e) ∧
      (m1.state = emailListState →
        ∀ (key : GoString) (w2 : Nat), ∃ out, updateEmailList vanishingEnv w2 m1 key = some out) :=
  C20_cursor_never_negative vanishingEnv 0
    ([str "enter", str "j", str "j", str "d", str "enter"].map Msg.KeyMsg)

/-! ## The draft outside the compose screen -/

theorem str_empty : str "" = [] := rfl

theorem clampCursor_draft (m : model) :
    (clampCursor m).composeTo = m.composeTo ∧
    (clampCursor m).composeSubject = m.composeSubject ∧
    (clampCursor m).composeBody = m.composeBody ∧
    (clampCursor m).composeField = m.composeField := by
  unfold clampCursor; split_ifs <;> exact ⟨rfl, rfl, rfl, rfl⟩

theorem updateMainMenu_draft {W : Type} (env : Env W) (w : W) (m : model) (key : GoString)
    (out : Outcome W) (hst : m.state = mainMenuState)
    (h : updateMainMenu env w m key = some out) :
    (out.model.state ≠ composeState →
      out.model.composeTo = m.composeTo ∧ out.model.composeSubject = m.composeSubject ∧
      out.model.composeBody = m.composeBody ∧ out.model.composeField = m.composeField) ∧
    (out.model.state = composeState →
      out.model.composeTo = [] ∧ out.model.composeSubject = [] ∧
      out.model.composeBody = [] ∧ out.model.composeField = 0) := by
  unfold updateMainMenu at h
  split_ifs at h <;> (cases h; simp [hst, str_empty])

theorem updateEmailList_draft {W : Type} (env : Env W) (w : W) (m : model) (key : GoString)
    (out : Outcome W) (hst : m.state = emailListState)
    (h : updateEmailList env w m key = some out) :
    out.model.state ≠ composeState ∧
    out.model.composeTo = m.composeTo ∧ out.model.composeSubject = m.composeSubject ∧
    out.model.composeBody = m.composeBody ∧ out.model.composeField = m.composeField := by
  unfold updateEmailList at h
  split_ifs at h <;> first
    | (cases h; exact by simp [hst])
    | (split at h
       · cases h
       · cases h; simp [hst, clampCursor_state, clampCursor_draft])

theorem updateEmailView_draft {W : Type} (env : Env W) (w : W) (m : model) (key : GoString)
    (out : Outcome W) (hst : m.state = emailViewState)
    (h : updateEmailView env w m key = some out) :
    out.model.state ≠ composeState ∧
    out.model.composeTo = m.composeTo ∧ out.model.composeSubject = m.composeSubject ∧
    out.model.composeBody = m.composeBody ∧ out.model.composeField = m.composeField := by
  unfold updateEmailView at h
  split_ifs at h <;> first
    | (cases h; exact by simp [hst])
    | (split at h <;> cases h
       · simp [hst]
       · simp [clampCursor_state, clampCursor_draft])

/-- Outside the compose screen a step of `Update` either stays outside it and
leaves the three draft texts and the focused field as they were, or enters it,
which happens from the main menu only and with the three texts empty and the
focus on the recipient. -/
theorem Update_draft_outside_compose {W : Type} (env : Env W) (w : W) (m : model) (msg : Msg)
    (out : Outcome W) (hs : m.state ≠ composeState) (h : Update env w m msg = some out) :
    (out.model.state ≠ composeState →
      out.model.composeTo = m.composeTo ∧ out.model.composeSubject = m.composeSubject ∧
      out.model.composeBody = m.composeBody ∧ out.model.composeField = m.composeField) ∧
    (out.model.state = composeState →
      m.state = mainMenuState ∧
      out.model.composeTo = [] ∧ out.model.composeSubject = [] ∧
      out.model.composeBody = [] ∧ out.model.composeField = 0) := by
  cases msg with
  | WindowSizeMsg wd ht =>
    cases h
    exact ⟨fun _ => ⟨rfl, rfl, rfl, rfl⟩, fun hc => absurd hc hs⟩
  | other =>
    cases h
    exact ⟨fun _ => ⟨rfl, rfl, rfl, rfl⟩, fun hc => absurd hc hs⟩
  | KeyMsg key =>
    unfold Update at h
    cases hst : m.state with
    | composeState => exact absurd hst hs
    | mainMenuState =>
      rw [hst] at h
      obtain ⟨h1, h2⟩ := updateMainMenu_draft env w m key out hst h
      exact ⟨h1, fun hc => ⟨rfl, h2 hc⟩⟩
    | emailListState =>
      rw [hst] at h
      obtain ⟨h1, h2⟩ := updateEmailList_draft env w m key out hst h
      exact ⟨fun _ => h2, fun hc => absurd hc h1⟩
    | emailViewState =>
      rw [hst] at h
      obtain ⟨h1, h2⟩ := updateEmailView_draft env w m key out hst h
      exact ⟨fun _ => h2, fun hc => absurd hc h1⟩

end EmailClient
